import Mathlib

/-!
# Verification of the SigViewer FLIRT `.sig` parser

A shallow embedding of `src/sigparser/flirtparser.cpp` (namespace `SigParser`).
Bytes are modelled as `Nat` with an explicit `% 256` wherever the C++ code
casts `char` to `quint8`; 32-bit accumulation wraps with `% 2^32` exactly where
the C++ `quint32` arithmetic can overflow.  General recursion (the tree walk
and the flag-driven `do/while` loops) is modelled with an explicit fuel
parameter; exhausted fuel yields the failure value, so every property proved
about *successful* outcomes reflects a genuine execution trace of the source.

The decompression gate is modelled in the `HAVE_ZLIB`-disabled build
configuration of the source file, in which a compressed body fails with
"Compressed .sig requires zlib (build without ZLIB found)"; no claim below
depends on the inflated bytes themselves.

Constants such as the module flag bits and `FLIRT_NAME_MAX` are declared in
the repository's `flirtparser.h` (shipped in `src/`, embedded alongside
`src/mainwindow.cpp`); the definitions below translate those declarations
directly, keeping the header's names and values.
-/

namespace SigParser

/-- From `flirtparser.h`: module flag bit 0x01, "more public names in this module". -/
def IDASIG_PARSE_MORE_PUBLIC_NAMES : Nat := 0x01
/-- From `flirtparser.h`: module flag bit 0x02, "tail-byte block follows". -/
def IDASIG_PARSE_READ_TAIL_BYTES : Nat := 0x02
/-- From `flirtparser.h`: module flag bit 0x04, "referenced-function block follows". -/
def IDASIG_PARSE_READ_REFERENCED_FUNCTIONS : Nat := 0x04
/-- From `flirtparser.h`: module flag bit 0x08, "more modules sharing current CRC". -/
def IDASIG_PARSE_MORE_MODULES_WITH_SAME_CRC : Nat := 0x08
/-- From `flirtparser.h`: module flag bit 0x10, "more CRC blocks at this leaf". -/
def IDASIG_PARSE_MORE_MODULES : Nat := 0x10
/-- From `flirtparser.h`: function attribute bit 0x02, "local (non-public)". -/
def IDASIG_FUNCTION_LOCAL : Nat := 0x02
/-- From `flirtparser.h`: function attribute bit 0x08, "unresolved collision". -/
def IDASIG_FUNCTION_UNRESOLVED_COLLISION : Nat := 0x08
/-- From `flirtparser.h`: header feature bit 0x10, "compressed body". -/
def IDASIG_FEATURE_COMPRESSED : Nat := 0x10
/-- From `flirtparser.h`: `FLIRT_NAME_MAX = 1024`, the cap on decoded names. -/
def FLIRT_NAME_MAX : Nat := 1024

/-- The parser cursor of `flirtparser.cpp`: byte buffer, position and the
saturating `eof`/`err` flags, plus the decoded format version. -/
structure ParseState where
  body : List Nat
  pos : Nat
  eof : Bool
  err : Bool
  version : Nat
deriving Repr, DecidableEq

/-- One pattern node: byte values (0 at variant slots) and the parallel
variant mask (1 = variant, 0 = concrete), as decoded by `readNodeBytes`. -/
structure FlirtPatternNode where
  patternBytes : List Nat
  variantMask : List Nat
deriving Repr, DecidableEq, Inhabited

/-- One public function of a module (`FlirtFunction` in the source); the name
is kept as its Latin-1 byte sequence. -/
structure FlirtFunction where
  offset : Nat
  name : List Nat
  isLocal : Bool
  isCollision : Bool
deriving Repr, DecidableEq, Inhabited

/-- One tail-byte constraint `(offset, value)`. -/
structure FlirtTailByte where
  offset : Nat
  value : Nat
deriving Repr, DecidableEq, Inhabited

/-- One referenced function `(offset, name, negativeOffset)`. -/
structure FlirtRefFunction where
  offset : Nat
  name : List Nat
  negativeOffset : Bool
deriving Repr, DecidableEq, Inhabited

/-- One decoded module. -/
structure FlirtModule where
  patternPath : List FlirtPatternNode
  crcLength : Nat
  crc16 : Nat
  length : Nat
  publicFunctions : List FlirtFunction
  tailBytes : List FlirtTailByte
  referencedFunctions : List FlirtRefFunction
deriving Repr, DecidableEq, Inhabited

/-- The decoded header fields (`FlirtHeader` in `flirtparser.h`; its member
initialisers zero every value field before `parseHeader` fills them in). -/
structure FlirtHeader where
  version : Nat := 0
  arch : Nat := 0
  fileTypes : Nat := 0
  osTypes : Nat := 0
  appTypes : Nat := 0
  features : Nat := 0
  oldNFunctions : Nat := 0
  crc16 : Nat := 0
  ctype : List Nat := []
  libraryNameLen : Nat := 0
  ctypesCrc16 : Nat := 0
  nFunctions : Nat := 0
  patternSize : Nat := 0
  unknownV10 : Nat := 0
deriving Repr, DecidableEq, Inhabited

/-- The parse result (`FlirtResult` in `flirtparser.h`; its member
initialisers start `success` at `false` and `errorMessage` empty until
`parse` decides the outcome). -/
structure FlirtResult where
  success : Bool := false
  errorMessage : String := ""
  header : FlirtHeader := {}
  libraryName : List Nat := []
  modules : List FlirtModule := []
deriving Repr, DecidableEq, Inhabited

/-- `readByte`: one saturating byte read (`static_cast<quint8>(body[pos++])`,
returning 0 and raising `eof` once the buffer is exhausted). -/
def readByte (st : ParseState) : Nat × ParseState :=
  if st.eof || st.err || decide (st.body.length ≤ st.pos) then
    (0, { st with eof := decide (st.body.length ≤ st.pos) })
  else
    (st.body.getD st.pos 0 % 256, { st with pos := st.pos + 1 })

/-- `readShortBE`: big-endian 16-bit read built from two `readByte`s. -/
def readShortBE (st : ParseState) : Nat × ParseState :=
  let (hi, st1) := readByte st
  let (lo, st2) := readByte st1
  ((hi <<< 8) ||| lo, st2)

/-- `readWordBE`: big-endian 32-bit read built from two `readShortBE`s. -/
def readWordBE (st : ParseState) : Nat × ParseState :=
  let (hi, st1) := readShortBE st
  let (lo, st2) := readShortBE st1
  ((hi <<< 16) ||| lo, st2)

/-- `readMultipleBytes`: the `multi` variable-length integer decoder. -/
def readMultipleBytes (st : ParseState) : Nat × ParseState :=
  let (r, st1) := readByte st
  if r &&& 0x80 ≠ 0x80 then (r, st1)
  else if r &&& 0xc0 ≠ 0xc0 then
    let (b, st2) := readByte st1
    (((r &&& 0x7f) <<< 8) ||| b, st2)
  else if r &&& 0xe0 ≠ 0xe0 then
    let (b, st2) := readByte st1
    let (s, st3) := readShortBE st2
    ((((r &&& 0x3f) <<< 24) ||| (b <<< 16)) ||| s, st3)
  else
    readWordBE st1

/-- `readMax2Bytes`: the `max2` variable-length integer decoder. -/
def readMax2Bytes (st : ParseState) : Nat × ParseState :=
  let (r, st1) := readByte st
  if r &&& 0x80 ≠ 0 then
    let (b, st2) := readByte st1
    (((r &&& 0x7f) <<< 8) ||| b, st2)
  else
    (r, st1)

/-- One uppercase hexadecimal digit (`QString::arg(..., 16).toUpper()`). -/
def hexDigitUpper (n : Nat) : Char :=
  (['0', '1', '2', '3', '4', '5', '6', '7', '8', '9',
    'A', 'B', 'C', 'D', 'E', 'F']).getD n '0'

/-- Two uppercase hex digits of a byte (`%1` with width 2, base 16, fill '0',
applied to `static_cast<quint8>(...)`, then `.toUpper()`). -/
def byteToHexUpper (b : Nat) : String :=
  String.mk [hexDigitUpper (b % 256 / 16), hexDigitUpper (b % 256 % 16)]

/-- The per-byte pieces of `FlirtPatternNode::toHexString`: ".." at variant
positions, two uppercase hex digits otherwise. -/
def FlirtPatternNode.hexChunks (n : FlirtPatternNode) : List String :=
  (List.range n.patternBytes.length).map (fun i =>
    if i < n.variantMask.length ∧ n.variantMask.getD i 0 ≠ 0 then ".."
    else byteToHexUpper (n.patternBytes.getD i 0))

/-- `FlirtPatternNode::toHexString`. -/
def FlirtPatternNode.toHexString (n : FlirtPatternNode) : String :=
  String.join n.hexChunks

/-- `FlirtModule::patternPathHex`: the node renderings joined with single
spaces. -/
def FlirtModule.patternPathHex (m : FlirtModule) : String :=
  (m.patternPath.map FlirtPatternNode.toHexString).foldl
    (fun out s => if out.isEmpty then out ++ s else out ++ " " ++ s) ""

/-- The ASCII bytes of the magic string `IDASGN`. -/
def idasgnMagic : List Nat := [0x49, 0x44, 0x41, 0x53, 0x47, 0x4e]

/-- `FlirtParser::isFlirt`: size, magic and version-range gate. -/
def isFlirt (data : List Nat) : Bool :=
  if data.length < 7 then false
  else if data.take 6 ≠ idasgnMagic then false
  else
    let v := data.getD 6 0 % 256
    decide (5 ≤ v ∧ v ≤ 10)

/-- Byte `i` of the buffer viewed as `quint8` (direct indexed header reads). -/
def byteAt (body : List Nat) (i : Nat) : Nat := body.getD i 0 % 256

/-- The version-conditional header extension of `FlirtParser::parseHeader`
(the nested `version >= 6` / `>= 8` / `>= 10` blocks), returning either the
truncation error or the extended header and the advanced state. -/
def parseHeaderVersionExt (v : Nat) (st : ParseState) (h0 : FlirtHeader) :
    Except String (FlirtHeader × ParseState) :=
  let b := byteAt st.body
  if 6 ≤ v then
    if st.body.length < st.pos + 4 then Except.error "Truncated v6/v7 header"
    else
      let nFunctions :=
        b st.pos ||| (b (st.pos + 1) <<< 8) ||| (b (st.pos + 2) <<< 16) |||
          (b (st.pos + 3) <<< 24)
      let st1 := { st with pos := st.pos + 4 }
      let h1 := { h0 with nFunctions := nFunctions }
      if 8 ≤ v then
        if st1.body.length < st1.pos + 2 then Except.error "Truncated v8/v9 header"
        else
          let patternSize := (b st1.pos <<< 8) ||| b (st1.pos + 1)
          let st2 := { st1 with pos := st1.pos + 2 }
          let h2 := { h1 with patternSize := patternSize }
          if 10 ≤ v then
            if st2.body.length < st2.pos + 2 then Except.error "Truncated v10 header"
            else
              let unknownV10 := (b st2.pos <<< 8) ||| b (st2.pos + 1)
              Except.ok ({ h2 with unknownV10 := unknownV10 },
                { st2 with pos := st2.pos + 2 })
          else Except.ok (h2, st2)
      else Except.ok (h1, st1)
  else Except.ok (h0, st)

/-- `FlirtParser::parseHeader`: magic/version check, fixed v5 tail
(little-endian fields), version-conditional extensions, library name. -/
def parseHeader (st : ParseState) (result : FlirtResult) :
    Bool × ParseState × FlirtResult :=
  if st.body.length < 7 then
    (false, st, { result with errorMessage := "File too short" })
  else if st.body.take 6 ≠ idasgnMagic then
    (false, st, { result with errorMessage := "Invalid magic (not IDASGN)" })
  else
    let v := byteAt st.body 6
    let st1 := { st with version := v, pos := 7 }
    if v < 5 ∨ 10 < v then
      (false, st1,
        { result with errorMessage := "Unsupported FLIRT version " ++ toString v })
    else if st1.body.length < st1.pos + 30 then
      (false, st1, { result with errorMessage := "Truncated v5 header" })
    else
      let b := byteAt st1.body
      let (arch, st2) := readByte st1
      let fileTypes :=
        b st2.pos ||| (b (st2.pos + 1) <<< 8) ||| (b (st2.pos + 2) <<< 16) |||
          (b (st2.pos + 3) <<< 24)
      let st3 := { st2 with pos := st2.pos + 4 }
      let osTypes := b st3.pos ||| (b (st3.pos + 1) <<< 8)
      let st4 := { st3 with pos := st3.pos + 2 }
      let appTypes := b st4.pos ||| (b (st4.pos + 1) <<< 8)
      let st5 := { st4 with pos := st4.pos + 2 }
      let features := b st5.pos ||| (b (st5.pos + 1) <<< 8)
      let st6 := { st5 with pos := st5.pos + 2 }
      let oldNFunctions := b st6.pos ||| (b (st6.pos + 1) <<< 8)
      let st7 := { st6 with pos := st6.pos + 2 }
      let crc16 := b st7.pos ||| (b (st7.pos + 1) <<< 8)
      let st8 := { st7 with pos := st7.pos + 2 }
      let ctype := (st8.body.drop st8.pos).take 12
      let st9 := { st8 with pos := st8.pos + 12 }
      let (libraryNameLen, st10) := readByte st9
      let ctypesCrc16 := b st10.pos ||| (b (st10.pos + 1) <<< 8)
      let st11 := { st10 with pos := st10.pos + 2 }
      let h0 : FlirtHeader :=
        { version := v, arch := arch, fileTypes := fileTypes,
          osTypes := osTypes, appTypes := appTypes, features := features,
          oldNFunctions := oldNFunctions, crc16 := crc16, ctype := ctype,
          libraryNameLen := libraryNameLen, ctypesCrc16 := ctypesCrc16 }
      match parseHeaderVersionExt v st11 h0 with
      | Except.error msg => (false, st11, { result with errorMessage := msg })
      | Except.ok (h, st') =>
        if st'.body.length < st'.pos + h.libraryNameLen then
          (false, st', { result with errorMessage := "Truncated library name" })
        else
          (true, { st' with pos := st'.pos + h.libraryNameLen },
            { result with
              header := h
              libraryName := (st'.body.drop st'.pos).take h.libraryNameLen })

/-- `FlirtParser::readNodeLength`: fail on a pre-existing `eof`/`err`, then
read one byte. -/
def readNodeLength (st : ParseState) : Option (Nat × ParseState) :=
  if st.eof || st.err then none else some (readByte st)

/-- `FlirtParser::readNodeVariantMask`: mask width selected by the node
length (`max2` below 16, `multi` up to 32, two `multi`s up to 64). -/
def readNodeVariantMask (st : ParseState) (nodeLen : Nat) :
    Option (Nat × ParseState) :=
  if nodeLen < 16 then
    let (m, st1) := readMax2Bytes st
    if st1.eof || st1.err then none else some (m, st1)
  else if nodeLen ≤ 32 then
    let (m, st1) := readMultipleBytes st
    if st1.eof || st1.err then none else some (m, st1)
  else if nodeLen ≤ 64 then
    let (hi, st1) := readMultipleBytes st
    let (lo, st2) := readMultipleBytes st1
    if st2.eof || st2.err then none else some ((hi <<< 32) ||| lo, st2)
  else none

/-- The byte loop of `FlirtParser::readNodeBytes`: `n` is the number of
bytes still to fill, so the head byte's mask bit is `2^n` for `n + 1`
remaining (the C++ starts at `1 << (nodeLen - 1)` and shifts right). -/
def readNodeLoop (mask : Nat) : Nat → ParseState → Option (List Nat × List Nat × ParseState)
  | 0, st => some ([], [], st)
  | n + 1, st =>
    if mask &&& (1 <<< n) ≠ 0 then
      match readNodeLoop mask n st with
      | some (pb, vm, st') => some (0 :: pb, 1 :: vm, st')
      | none => none
    else
      if st.eof || st.err then none
      else
        let (b, st1) := readByte st
        match readNodeLoop mask n st1 with
        | some (pb, vm, st') => some (b :: pb, 0 :: vm, st')
        | none => none

/-- `FlirtParser::readNodeBytes`: bounds-check the length, then fill the
pattern bytes / variant mask from the most-significant mask bit down. -/
def readNodeBytes (st : ParseState) (nodeLen : Nat) (variantMask : Nat) :
    Option (FlirtPatternNode × ParseState) :=
  if 63 < nodeLen ∨ nodeLen = 0 then none
  else
    match readNodeLoop variantMask nodeLen st with
    | some (pb, vm, st') => some (⟨pb, vm⟩, st')
    | none => none

/-- The name-accumulation loop of `readModulePublicFunctions`
(`while (currentByte >= 0x20 && nameBytes.size() < FLIRT_NAME_MAX)`),
returning the name bytes, the terminating byte (the module flags) and the
state.  `fuel` only bounds the recursion; it exceeds every real trace. -/
def readNameLoop : Nat → ParseState → Nat → List Nat →
    Option (List Nat × Nat × ParseState)
  | 0, _, _, _ => none
  | fuel + 1, st, b, acc =>
    if 0x20 ≤ b ∧ acc.length < FLIRT_NAME_MAX then
      let (b1, st1) := readByte st
      if st1.eof || st1.err then none
      else readNameLoop fuel st1 b1 (acc ++ [b])
    else some (acc, b, st)

/-- The function loop of `FlirtParser::readModulePublicFunctions`
(`do { ... } while (flags & IDASIG_PARSE_MORE_PUBLIC_NAMES)`), accumulating
into `acc`; the offset is 32-bit and wraps. -/
def readFnLoop : Nat → ParseState → Nat → List FlirtFunction →
    Option (List FlirtFunction × Nat × ParseState)
  | 0, _, _, _ => none
  | fuel + 1, st, offset, acc =>
    let (d, st1) := if 9 ≤ st.version then readMultipleBytes st else readMax2Bytes st
    if st1.eof || st1.err then none
    else
      let offset1 := (offset + d) % 4294967296
      let (b0, st2) := readByte st1
      if st2.eof || st2.err then none
      else
        if b0 < 0x20 then
          let isL := b0 &&& IDASIG_FUNCTION_LOCAL ≠ 0
          let isC := b0 &&& IDASIG_FUNCTION_UNRESOLVED_COLLISION ≠ 0
          let (b1, st3) := readByte st2
          if st3.eof || st3.err then none
          else
            match readNameLoop (fuel + 1) st3 b1 [] with
            | none => none
            | some (name, flags, st4) =>
              let acc1 := acc ++ [⟨offset1, name, decide isL, decide isC⟩]
              if flags &&& IDASIG_PARSE_MORE_PUBLIC_NAMES ≠ 0 then
                readFnLoop fuel st4 offset1 acc1
              else some (acc1, flags, st4)
        else
          match readNameLoop (fuel + 1) st2 b0 [] with
          | none => none
          | some (name, flags, st4) =>
            let acc1 := acc ++ [⟨offset1, name, false, false⟩]
            if flags &&& IDASIG_PARSE_MORE_PUBLIC_NAMES ≠ 0 then
              readFnLoop fuel st4 offset1 acc1
            else some (acc1, flags, st4)

/-- `FlirtParser::readModulePublicFunctions`: run the function loop with the
running offset starting at 0, appending to the module's list. -/
def readModulePublicFunctions (fuel : Nat) (st : ParseState) (mod : FlirtModule) :
    Option (FlirtModule × Nat × ParseState) :=
  match readFnLoop fuel st 0 mod.publicFunctions with
  | some (fns, flags, st') => some ({ mod with publicFunctions := fns }, flags, st')
  | none => none

/-- The counted loop of `FlirtParser::readModuleTailBytes`. -/
def tailLoop : Nat → ParseState → FlirtModule → Option (FlirtModule × ParseState)
  | 0, st, mod => some (mod, st)
  | n + 1, st, mod =>
    let (off, st1) := if 9 ≤ st.version then readMultipleBytes st else readMax2Bytes st
    if st1.eof || st1.err then none
    else
      let (v, st2) := readByte st1
      if st2.eof || st2.err then none
      else tailLoop n st2 { mod with tailBytes := mod.tailBytes ++ [⟨off, v⟩] }

/-- `FlirtParser::readModuleTailBytes`: explicit count byte from version 8
on, a single entry before. -/
def readModuleTailBytes (st : ParseState) (mod : FlirtModule) :
    Option (FlirtModule × ParseState) :=
  let (count, st1) := if 8 ≤ st.version then readByte st else (1, st)
  if st1.eof || st1.err then none
  else tailLoop count st1 mod

/-- The byte loop that reads a referenced function's `nameLen` name bytes. -/
def refNameLoop : Nat → ParseState → Option (List Nat × ParseState)
  | 0, st => some ([], st)
  | n + 1, st =>
    let (b, st1) := readByte st
    if st1.eof || st1.err then none
    else
      match refNameLoop n st1 with
      | some (bs, st') => some (b :: bs, st')
      | none => none

/-- The counted loop of `FlirtParser::readModuleReferencedFunctions`. -/
def refLoop : Nat → ParseState → FlirtModule → Option (FlirtModule × ParseState)
  | 0, st, mod => some (mod, st)
  | n + 1, st, mod =>
    let (off, st1) := if 9 ≤ st.version then readMultipleBytes st else readMax2Bytes st
    if st1.eof || st1.err then none
    else
      let (nl0, st2) := readByte st1
      if st2.eof || st2.err then none
      else
        let next := fun (nameLen : Nat) (st3 : ParseState) =>
          if FLIRT_NAME_MAX ≤ nameLen then none
          else
            match refNameLoop nameLen st3 with
            | none => none
            | some (bs, st4) =>
              let rf : FlirtRefFunction :=
                if bs.length > 0 ∧ bs.getLast? = some 0 then
                  ⟨off, bs.dropLast, true⟩
                else ⟨off, bs, false⟩
              refLoop n st4 { mod with referencedFunctions := mod.referencedFunctions ++ [rf] }
        if nl0 = 0 then
          let (nl1, st3) := readMultipleBytes st2
          if st3.eof || st3.err then none else next nl1 st3
        else next nl0 st2

/-- `FlirtParser::readModuleReferencedFunctions`. -/
def readModuleReferencedFunctions (st : ParseState) (mod : FlirtModule) :
    Option (FlirtModule × ParseState) :=
  let (count, st1) := if 8 ≤ st.version then readByte st else (1, st)
  if st1.eof || st1.err then none
  else refLoop count st1 mod

/-- The body of the inner `do/while` of `FlirtParser::parseLeaf`: build one
module (length, public functions, flag-controlled tail and referenced-function
blocks) and hand back the trailing flags byte. -/
def parseLeafModule (fuel : Nat) (st : ParseState) (crcLength crc16 : Nat)
    (path : List FlirtPatternNode) : Option (FlirtModule × Nat × ParseState) :=
  let mod0 : FlirtModule :=
    { patternPath := path, crcLength := crcLength, crc16 := crc16, length := 0,
      publicFunctions := [], tailBytes := [], referencedFunctions := [] }
  let (len, st1) := if 9 ≤ st.version then readMultipleBytes st else readMax2Bytes st
  if st1.eof || st1.err then none
  else
    match readModulePublicFunctions fuel st1 { mod0 with length := len } with
    | none => none
    | some (mod1, flags, st2) =>
      let afterTail : Option (FlirtModule × ParseState) :=
        if flags &&& IDASIG_PARSE_READ_TAIL_BYTES ≠ 0 then
          readModuleTailBytes st2 mod1
        else some (mod1, st2)
      match afterTail with
      | none => none
      | some (mod2, st3) =>
        let afterRef : Option (FlirtModule × ParseState) :=
          if flags &&& IDASIG_PARSE_READ_REFERENCED_FUNCTIONS ≠ 0 then
            readModuleReferencedFunctions st3 mod2
          else some (mod2, st3)
        match afterRef with
        | none => none
        | some (mod3, st4) => some (mod3, flags, st4)

/-- The inner `do/while (flags & MORE_MODULES_WITH_SAME_CRC)` of
`parseLeaf`: modules appended so far survive a failure, mirroring the C++
append into `modulesOut`. -/
def parseLeafInner : Nat → ParseState → Nat → Nat → List FlirtPatternNode →
    List FlirtModule → Bool × List FlirtModule × Nat × ParseState
  | 0, st, _, _, _, mods => (false, mods, 0, st)
  | fuel + 1, st, crcLength, crc16, path, mods =>
    match parseLeafModule (fuel + 1) st crcLength crc16 path with
    | none => (false, mods, 0, st)
    | some (mod, flags, st') =>
      let mods1 := mods ++ [mod]
      if flags &&& IDASIG_PARSE_MORE_MODULES_WITH_SAME_CRC ≠ 0 then
        parseLeafInner fuel st' crcLength crc16 path mods1
      else (true, mods1, flags, st')

/-- `FlirtParser::parseLeaf`: the outer `do/while (flags & MORE_MODULES)`
over CRC blocks. -/
def parseLeaf : Nat → ParseState → List FlirtPatternNode → List FlirtModule →
    Bool × List FlirtModule × ParseState
  | 0, st, _, mods => (false, mods, st)
  | fuel + 1, st, path, mods =>
    let (crcLength, st1) := readByte st
    if st1.eof || st1.err then (false, mods, st1)
    else
      let (crc16, st2) := readShortBE st1
      if st2.eof || st2.err then (false, mods, st2)
      else
        match parseLeafInner (fuel + 1) st2 crcLength crc16 path mods with
        | (false, mods1, _, st') => (false, mods1, st')
        | (true, mods1, flags, st') =>
          if flags &&& IDASIG_PARSE_MORE_MODULES ≠ 0 then
            parseLeaf fuel st' path mods1
          else (true, mods1, st')

mutual

/-- `FlirtParser::parseTree`: read the child count via `multi`; zero means a
leaf, otherwise decode the children.  Mirrors the C++ mutation of
`result`/`modulesOut` by returning them, also on failure.  The fuel strictly
decreases into each nested call; `parse` supplies more than any real trace
can consume. -/
def parseTree (fuel : Nat) (st : ParseState) (result : FlirtResult)
    (path : List FlirtPatternNode) (mods : List FlirtModule) :
    Bool × ParseState × FlirtResult × List FlirtModule :=
  match fuel with
  | 0 => (false, st, result, mods)
  | fuel' + 1 =>
    let (treeNodes, st1) := readMultipleBytes st
    if st1.eof || st1.err then
      (false, st1, { result with errorMessage := "Unexpected EOF in tree" }, mods)
    else if treeNodes = 0 then
      match parseLeaf (fuel' + 1) st1 path mods with
      | (ok, mods1, st') => (ok, st', result, mods1)
    else parseChildren fuel' treeNodes st1 result path mods
termination_by structural fuel

/-- The `for (i = 0; i < treeNodes; i++)` loop of `parseTree`: decode one
inline pattern node, recurse into its subtree with the extended path, then
continue with the remaining siblings on the parent's path. -/
def parseChildren (fuel : Nat) (n : Nat) (st : ParseState) (result : FlirtResult)
    (path : List FlirtPatternNode) (mods : List FlirtModule) :
    Bool × ParseState × FlirtResult × List FlirtModule :=
  match fuel with
  | 0 => (false, st, result, mods)
  | fuel' + 1 =>
    match n with
    | 0 => (true, st, result, mods)
    | n' + 1 =>
      match readNodeLength st with
      | none => (false, st, result, mods)
      | some (nodeLen, st1) =>
        match readNodeVariantMask st1 nodeLen with
        | none => (false, st1, result, mods)
        | some (mask, st2) =>
          match readNodeBytes st2 nodeLen mask with
          | none => (false, st2, result, mods)
          | some (node, st3) =>
            match parseTree fuel' st3 result (path ++ [node]) mods with
            | (true, st4, r4, m4) => parseChildren fuel' n' st4 r4 path m4
            | (false, st4, r4, m4) => (false, st4, r4, m4)
termination_by structural fuel

end

/-- `FlirtParser::parse`, in the `HAVE_ZLIB`-disabled build configuration:
gate on `isFlirt`, decode the header, reject compressed bodies, then walk the
tree.  The fuel handed to the tree walk exceeds the byte count, which bounds
every loop of a real trace. -/
def parse (data : List Nat) : FlirtResult :=
  let st0 : ParseState :=
    { body := data, pos := 0, eof := false, err := false,
      version := data.getD 6 0 % 256 }
  let result0 : FlirtResult := {}
  if ¬ isFlirt data then
    { result0 with errorMessage := "Not a valid FLIRT .sig file" }
  else
    match parseHeader st0 result0 with
    | (false, _, r) => r
    | (true, st1, r1) =>
      if r1.header.features &&& IDASIG_FEATURE_COMPRESSED ≠ 0 then
        { r1 with errorMessage := "Compressed .sig requires zlib (build without ZLIB found)" }
      else
        match parseTree (2 * data.length + 4) st1 r1 [] [] with
        | (false, _, r2, mods) =>
          let r3 := { r2 with modules := mods }
          if r3.errorMessage = "" then
            { r3 with errorMessage := "Parse error in signature tree" }
          else r3
        | (true, _, r2, mods) => { r2 with modules := mods, success := true }

/-- Follows the spec's words (section 8, property 7, and section 4.1): the
documented encoder for the `multi` scheme — one byte when the top bit is
clear, two bytes under a `0x80..0xbf` prefix, four bytes with six payload
bits in a `0xc0..0xdf` prefix, otherwise a discarded prefix byte followed by
four big-endian bytes. -/
def encodeMulti (v : Nat) : List Nat :=
  if v < 0x80 then [v]
  else if v < 0x4000 then [0x80 ||| (v >>> 8), v % 256]
  else if v < 0x20000000 then
    [0xc0 ||| (v >>> 24), (v >>> 16) % 256, (v >>> 8) % 256, v % 256]
  else
    [0xe0, (v >>> 24) % 256, (v >>> 16) % 256, (v >>> 8) % 256, v % 256]

/-- Decode a byte list with the reader's `multi` primitive from position 0. -/
def decodeMulti (bytes : List Nat) : Nat :=
  (readMultipleBytes { body := bytes, pos := 0, eof := false, err := false, version := 0 }).1

/-! ## Reader lemmas -/

theorem readByte_at_end (st : ParseState) (h : st.body.length ≤ st.pos) :
    readByte st = (0, { st with eof := true }) := by
  unfold readByte
  rw [if_pos (by simp [decide_eq_true h])]
  simp [decide_eq_true h]

theorem readByte_body (st : ParseState) : (readByte st).2.body = st.body := by
  unfold readByte; split <;> rfl

theorem readByte_err (st : ParseState) : (readByte st).2.err = st.err := by
  unfold readByte; split <;> rfl

theorem readByte_version (st : ParseState) : (readByte st).2.version = st.version := by
  unfold readByte; split <;> rfl

theorem readByte_pos_le (st : ParseState) (h : st.pos ≤ st.body.length) :
    (readByte st).2.pos ≤ (readByte st).2.body.length := by
  unfold readByte
  split
  · simpa using h
  · rename_i hc
    simp only [Bool.or_eq_true, decide_eq_true_eq, not_or] at hc
    simp only []
    omega

theorem readByte_pos_mono (st : ParseState) : st.pos ≤ (readByte st).2.pos := by
  unfold readByte; split <;> simp

/-- Bundled preservation facts used when chaining primitives. -/
theorem readByte_inv (st : ParseState) :
    (readByte st).2.body = st.body ∧ (readByte st).2.err = st.err ∧
    (readByte st).2.version = st.version ∧
    (st.pos ≤ st.body.length → (readByte st).2.pos ≤ st.body.length) := by
  refine ⟨readByte_body st, readByte_err st, readByte_version st, ?_⟩
  intro h
  have := readByte_pos_le st h
  rwa [readByte_body st] at this

theorem readShortBE_at_end (st : ParseState) (h : st.body.length ≤ st.pos) :
    readShortBE st = (0, { st with eof := true }) := by
  simp [readShortBE, readByte, h]

theorem readWordBE_at_end (st : ParseState) (h : st.body.length ≤ st.pos) :
    readWordBE st = (0, { st with eof := true }) := by
  simp [readWordBE, readShortBE_at_end _ h]
  rw [readShortBE_at_end _ (by simpa using h)]

theorem readMax2Bytes_at_end (st : ParseState) (h : st.body.length ≤ st.pos) :
    readMax2Bytes st = (0, { st with eof := true }) := by
  simp [readMax2Bytes, readByte_at_end _ h]

theorem readMultipleBytes_at_end (st : ParseState) (h : st.body.length ≤ st.pos) :
    readMultipleBytes st = (0, { st with eof := true }) := by
  simp [readMultipleBytes, readByte_at_end _ h]

/-- What every reader primitive preserves about the cursor: the buffer, the
`err` flag and the version are untouched, the position is monotone and stays
within the buffer. -/
def StInv (st st' : ParseState) : Prop :=
  st'.body = st.body ∧ st'.err = st.err ∧ st'.version = st.version ∧
  st.pos ≤ st'.pos ∧ (st.pos ≤ st.body.length → st'.pos ≤ st.body.length)

theorem StInv.refl (st : ParseState) : StInv st st :=
  ⟨rfl, rfl, rfl, le_refl _, fun h => h⟩

theorem StInv.trans {a b c : ParseState} (h1 : StInv a b) (h2 : StInv b c) :
    StInv a c := by
  obtain ⟨e1, e2, e3, e4, e5⟩ := h1
  obtain ⟨f1, f2, f3, f4, f5⟩ := h2
  refine ⟨by rw [f1, e1], by rw [f2, e2], by rw [f3, e3], le_trans e4 f4, ?_⟩
  intro h
  have g := f5 (by rw [e1]; exact e5 h)
  rwa [e1] at g

theorem readByte_stinv (st : ParseState) : StInv st (readByte st).2 := by
  obtain ⟨e1, e2, e3, e4⟩ := readByte_inv st
  exact ⟨e1, e2, e3, readByte_pos_mono st, e4⟩

theorem readShortBE_stinv (st : ParseState) : StInv st (readShortBE st).2 := by
  unfold readShortBE
  rcases hb : readByte st with ⟨hi, st1⟩
  dsimp only
  rcases hb2 : readByte st1 with ⟨lo, st2⟩
  dsimp only
  have i1 := readByte_stinv st; rw [hb] at i1
  have i2 := readByte_stinv st1; rw [hb2] at i2
  exact StInv.trans i1 i2

theorem readWordBE_stinv (st : ParseState) : StInv st (readWordBE st).2 := by
  unfold readWordBE
  rcases hb : readShortBE st with ⟨hi, st1⟩
  dsimp only
  rcases hb2 : readShortBE st1 with ⟨lo, st2⟩
  dsimp only
  have i1 := readShortBE_stinv st; rw [hb] at i1
  have i2 := readShortBE_stinv st1; rw [hb2] at i2
  exact StInv.trans i1 i2

theorem readMax2Bytes_stinv (st : ParseState) : StInv st (readMax2Bytes st).2 := by
  unfold readMax2Bytes
  rcases hb : readByte st with ⟨r, st1⟩
  dsimp only
  have i1 := readByte_stinv st; rw [hb] at i1
  split
  · rcases hb2 : readByte st1 with ⟨b, st2⟩
    dsimp only
    have i2 := readByte_stinv st1; rw [hb2] at i2
    exact StInv.trans i1 i2
  · exact i1

theorem readMultipleBytes_stinv (st : ParseState) :
    StInv st (readMultipleBytes st).2 := by
  unfold readMultipleBytes
  rcases hb : readByte st with ⟨r, st1⟩
  dsimp only
  have i1 := readByte_stinv st; rw [hb] at i1
  split
  · exact i1
  · split
    · rcases hb2 : readByte st1 with ⟨b, st2⟩
      dsimp only
      have i2 := readByte_stinv st1; rw [hb2] at i2
      exact StInv.trans i1 i2
    · split
      · rcases hb2 : readByte st1 with ⟨b, st2⟩
        dsimp only
        rcases hb3 : readShortBE st2 with ⟨s, st3⟩
        dsimp only
        have i2 := readByte_stinv st1; rw [hb2] at i2
        have i3 := readShortBE_stinv st2; rw [hb3] at i3
        exact StInv.trans i1 (StInv.trans i2 i3)
      · rcases hb2 : readWordBE st1 with ⟨w, st2⟩
        have i2 := readWordBE_stinv st1; rw [hb2] at i2
        exact StInv.trans i1 i2

/-! ## C2: `multi` encoding round-trip -/

/-- C2: for each of 0, 0x7f, 0x80, 0x7fff, 0x8000, 0x3fffff, 0x400000 and
0xffffffff, encoding with the documented `multi` scheme (1-byte for top bit
clear; 2-byte for prefix 0x80..0xbf; 4-byte with 6 payload bits in the prefix
for 0xc0..0xdf; prefix byte discarded and 4 big-endian bytes otherwise) and
decoding with `readMultipleBytes` yields the original value. -/
theorem multi_roundtrip_c2 :
    decodeMulti (encodeMulti 0) = 0 ∧
    decodeMulti (encodeMulti 0x7f) = 0x7f ∧
    decodeMulti (encodeMulti 0x80) = 0x80 ∧
    decodeMulti (encodeMulti 0x7fff) = 0x7fff ∧
    decodeMulti (encodeMulti 0x8000) = 0x8000 ∧
    decodeMulti (encodeMulti 0x3fffff) = 0x3fffff ∧
    decodeMulti (encodeMulti 0x400000) = 0x400000 ∧
    decodeMulti (encodeMulti 0xffffffff) = 0xffffffff := by
  decide

/-! ## C8: the reader is saturating -/

/-- C8: every primitive invoked with the position at or past the end of the
body returns 0, sets `eof` and leaves the position (and buffer) unchanged —
so the post-state again satisfies the same bound and every subsequent read
also returns 0 — and a position within the body never moves past the end. -/
theorem reader_saturating_c8 :
    (∀ st : ParseState, st.body.length ≤ st.pos →
      readByte st = (0, { st with eof := true }) ∧
      readShortBE st = (0, { st with eof := true }) ∧
      readWordBE st = (0, { st with eof := true }) ∧
      readMax2Bytes st = (0, { st with eof := true }) ∧
      readMultipleBytes st = (0, { st with eof := true })) ∧
    (∀ st : ParseState, st.pos ≤ st.body.length →
      (readByte st).2.pos ≤ (readByte st).2.body.length ∧
      (readShortBE st).2.pos ≤ (readShortBE st).2.body.length ∧
      (readWordBE st).2.pos ≤ (readWordBE st).2.body.length ∧
      (readMax2Bytes st).2.pos ≤ (readMax2Bytes st).2.body.length ∧
      (readMultipleBytes st).2.pos ≤ (readMultipleBytes st).2.body.length) := by
  constructor
  · intro st h
    exact ⟨readByte_at_end st h, readShortBE_at_end st h, readWordBE_at_end st h,
      readMax2Bytes_at_end st h, readMultipleBytes_at_end st h⟩
  · intro st h
    have b := readByte_stinv st
    have s := readShortBE_stinv st
    have w := readWordBE_stinv st
    have m := readMax2Bytes_stinv st
    have u := readMultipleBytes_stinv st
    exact ⟨by rw [b.1]; exact b.2.2.2.2 h, by rw [s.1]; exact s.2.2.2.2 h,
      by rw [w.1]; exact w.2.2.2.2 h, by rw [m.1]; exact m.2.2.2.2 h,
      by rw [u.1]; exact u.2.2.2.2 h⟩

/-- Witness for C8 at a concrete exhausted state and a concrete in-bounds
state. -/
theorem reader_saturating_c8_witness :
    readMultipleBytes { body := [1, 2, 3], pos := 3, eof := false, err := false, version := 0 } =
      (0, { body := [1, 2, 3], pos := 3, eof := true, err := false, version := 0 }) ∧
    (readMultipleBytes { body := [1, 2, 3], pos := 0, eof := false, err := false, version := 0 }).2.pos ≤
      (readMultipleBytes { body := [1, 2, 3], pos := 0, eof := false, err := false, version := 0 }).2.body.length := by
  constructor
  · exact (reader_saturating_c8.1
      { body := [1, 2, 3], pos := 3, eof := false, err := false, version := 0 }
      (by decide)).2.2.2.2
  · exact (reader_saturating_c8.2
      { body := [1, 2, 3], pos := 0, eof := false, err := false, version := 0 }
      (by decide)).2.2.2.2

/-! ## C1: the magic/version gate -/

theorem isFlirt_eq_false (data : List Nat)
    (h : data.take 6 ≠ idasgnMagic ∨ data.getD 6 0 % 256 < 5 ∨
      10 < data.getD 6 0 % 256) : isFlirt data = false := by
  unfold isFlirt
  split
  · rfl
  · split
    · rfl
    · rename_i hlen hmagic
      simp only [decide_eq_false_iff_not, not_and, not_le]
      rcases h with h | h | h
      · exact absurd h hmagic
      · intro h5; omega
      · intro _; omega

/-- C1: any input whose first 6 bytes are not `IDASGN`, or whose 7th byte is
outside 5..=10, makes `parse` return `success = false`. -/
theorem parse_gate_c1 (data : List Nat)
    (h : data.take 6 ≠ idasgnMagic ∨ data.getD 6 0 % 256 < 5 ∨
      10 < data.getD 6 0 % 256) : (parse data).success = false := by
  have hf := isFlirt_eq_false data h
  unfold parse
  simp [hf]

/-- Witness for C1 at a concrete input with a wrong magic. -/
theorem parse_gate_c1_witness : (parse [0, 0, 0]).success = false :=
  parse_gate_c1 [0, 0, 0] (Or.inl (by decide))

/-! ## C6: message for a good magic with an unsupported version -/

/-- C6 counterexample: on `IDASGN` followed by version byte 11, `parse` fails
with the generic gate message, not with "Unsupported FLIRT version 11" as the
claim demands (the `isFlirt` gate preempts `parseHeader`). -/
theorem parse_version_message_c6_cex :
    (parse (idasgnMagic ++ [11])).success = false ∧
    (parse (idasgnMagic ++ [11])).errorMessage = "Not a valid FLIRT .sig file" ∧
    (parse (idasgnMagic ++ [11])).errorMessage ≠ "Unsupported FLIRT version 11" := by
  refine ⟨by decide, by decide, ?_⟩
  intro h
  rw [show (parse (idasgnMagic ++ [11])).errorMessage = "Not a valid FLIRT .sig file" by decide] at h
  exact absurd h (by decide)

/-- C6 as amended: with a good magic but a version byte outside 5..=10,
`parse` fails with the gate message "Not a valid FLIRT .sig file" (the
`isFlirt` gate runs before `parseHeader`); the message
"Unsupported FLIRT version N" is produced only by `parseHeader` itself when
it is applied to such an input of length at least 7. -/
theorem parse_version_message_c6 (data : List Nat)
    (hmagic : data.take 6 = idasgnMagic)
    (hv : data.getD 6 0 % 256 < 5 ∨ 10 < data.getD 6 0 % 256) :
    (parse data).success = false ∧
    (parse data).errorMessage = "Not a valid FLIRT .sig file" ∧
    (7 ≤ data.length →
      (parseHeader
          { body := data, pos := 0, eof := false, err := false
            version := data.getD 6 0 % 256 } {}).2.2.errorMessage =
        "Unsupported FLIRT version " ++ toString (data.getD 6 0 % 256)) := by
  have hf := isFlirt_eq_false data (Or.inr hv)
  refine ⟨?_, ?_, ?_⟩
  · unfold parse; simp [hf]
  · unfold parse; simp [hf]
  · intro hlen
    unfold parseHeader
    rw [if_neg (by simp; omega), if_neg (by simpa using hmagic)]
    rw [if_pos (by simpa [byteAt] using hv)]
    simp [byteAt]

/-- Witness for C6 at a concrete 7-byte input with version 12. -/
theorem parse_version_message_c6_witness :
    (parse (idasgnMagic ++ [12])).success = false ∧
    (parse (idasgnMagic ++ [12])).errorMessage = "Not a valid FLIRT .sig file" ∧
    (7 ≤ (idasgnMagic ++ [12]).length →
      (parseHeader
          { body := idasgnMagic ++ [12], pos := 0, eof := false, err := false
            version := (idasgnMagic ++ [12]).getD 6 0 % 256 } {}).2.2.errorMessage =
        "Unsupported FLIRT version " ++ toString ((idasgnMagic ++ [12]).getD 6 0 % 256)) :=
  parse_version_message_c6 (idasgnMagic ++ [12]) (by decide) (by decide)

/-! ## C7: failure semantics -/

theorem append_ne_empty_left (s t : String) (h : s ≠ "") : s ++ t ≠ "" := by
  intro hEq
  apply h
  cases s with | mk sd =>
  cases t with | mk td =>
  have hd := congrArg String.data hEq
  simp only [String.data] at hd
  have h1 : sd = [] := (List.append_eq_nil.mp hd).1
  simp [h1]

/-- `errorMessage` of a record update is the updated string. -/
theorem result_set_msg_ne (r : FlirtResult) (s : String) (h : s ≠ "") :
    ({ r with errorMessage := s } : FlirtResult).errorMessage ≠ "" := h

/-- `errorMessage` of an explicit record is its second field. -/
theorem result_mk_msg_ne (a : Bool) (s : String) (hd : FlirtHeader)
    (ln : List Nat) (ms : List FlirtModule) (hne : s ≠ "") :
    (FlirtResult.mk a s hd ln ms).errorMessage ≠ "" := hne

theorem parseHeaderVersionExt_error_msg (v : Nat) (st : ParseState)
    (h0 : FlirtHeader) (msg : String)
    (h : parseHeaderVersionExt v st h0 = Except.error msg) : msg ≠ "" := by
  unfold parseHeaderVersionExt at h
  dsimp only at h
  split at h
  · split at h
    · simp only [Except.error.injEq] at h; subst h; decide
    · split at h
      · split at h
        · simp only [Except.error.injEq] at h; subst h; decide
        · split at h
          · split at h
            · simp only [Except.error.injEq] at h; subst h; decide
            · exact Except.noConfusion h
          · exact Except.noConfusion h
      · exact Except.noConfusion h
  · exact Except.noConfusion h

theorem parseHeader_fail_msg (st : ParseState) (result : FlirtResult)
    (st' : ParseState) (r : FlirtResult)
    (h : parseHeader st result = (false, st', r)) : r.errorMessage ≠ "" := by
  unfold parseHeader at h
  split at h
  · simp only [Prod.mk.injEq] at h; rw [← h.2.2]
    exact result_set_msg_ne _ _ (by decide)
  · split at h
    · simp only [Prod.mk.injEq] at h; rw [← h.2.2]
      exact result_set_msg_ne _ _ (by decide)
    · dsimp only at h
      split at h
      · simp only [Prod.mk.injEq] at h; rw [← h.2.2]
        exact result_set_msg_ne _ _ (append_ne_empty_left _ _ (by decide))
      · split at h
        · simp only [Prod.mk.injEq] at h; rw [← h.2.2]
          exact result_set_msg_ne _ _ (by decide)
        · split at h
          · rename_i msg hext
            simp only [Prod.mk.injEq] at h
            rw [← h.2.2]
            exact result_set_msg_ne _ _ (parseHeaderVersionExt_error_msg _ _ _ msg hext)
          · split at h
            · simp only [Prod.mk.injEq] at h; rw [← h.2.2]
              exact result_set_msg_ne _ _ (by decide)
            · simp only [Prod.mk.injEq] at h
              exact absurd h.1 (by decide)

/-- C7 as amended: every failed `parse` carries a non-empty `errorMessage`
(set by the failing step, or by the generic tree-walk fallback). -/
theorem parse_failure_message_c7 (data : List Nat)
    (h : (parse data).success = false) : (parse data).errorMessage ≠ "" := by
  revert h
  unfold parse
  dsimp only
  split
  · intro _
    decide
  · split
    · rename_i st' r heq
      intro _
      exact parseHeader_fail_msg _ _ _ _ heq
    · rename_i st1 r1 heq
      split
      · intro _
        exact result_set_msg_ne _ _ (by decide)
      · split
        · rename_i st2 r2 mods heq2
          split
          · intro _
            exact result_mk_msg_ne _ _ _ _ _ (by decide)
          · rename_i hne
            intro _
            simpa using hne
        · intro hs
          simp at hs

/-- A minimal valid version-5 header: magic, version byte 5, and 30 zero
bytes (all features off, empty library name). -/
def v5Header : List Nat := idasgnMagic ++ [5] ++ List.replicate 30 0

/-- A minimal valid version-8 header (adds `nFunctions` and `patternSize`). -/
def v8Header : List Nat :=
  idasgnMagic ++ [8] ++ List.replicate 30 0 ++ [0, 0, 0, 0] ++ [0, 0]

/-- A minimal valid version-9 header. -/
def v9Header : List Nat :=
  idasgnMagic ++ [9] ++ List.replicate 30 0 ++ [0, 0, 0, 0] ++ [0, 0]

/-- Scenario A of the spec: a leaf-only tree with one module and one
function "foo" at offset 8. -/
def exInputA : List Nat := v5Header ++ [0, 4, 18, 52, 5, 8, 102, 111, 111, 0]

/-- A two-child tree whose first child completes a full module and whose
second child hits the end of the input. -/
def cex7Input : List Nat :=
  v5Header ++ [2, 1, 0, 170, 0, 4, 18, 52, 5, 8, 102, 111, 111, 0]

/-- Unfolding `parse` on an input that passes the gate, the header and an
uncompressed body, splitting the evaluation at literal intermediate states
(this keeps kernel evaluation of concrete runs linear). -/
theorem parse_unfold_success (data : List Nat) (st1 : ParseState)
    (r1 : FlirtResult) (stF : ParseState) (rF : FlirtResult)
    (mods : List FlirtModule)
    (hg : isFlirt data = true)
    (hh : parseHeader
        { body := data, pos := 0, eof := false, err := false
          version := data.getD 6 0 % 256 } {} = (true, st1, r1))
    (hcomp : r1.header.features &&& IDASIG_FEATURE_COMPRESSED = 0)
    (ht : parseTree (2 * data.length + 4) st1 r1 [] [] = (true, stF, rF, mods)) :
    parse data = { rF with modules := mods, success := true } := by
  unfold parse
  rw [hg]
  rw [if_neg (by simp)]
  dsimp only
  rw [hh]
  dsimp only
  rw [if_neg (by simp [hcomp])]
  rw [ht]

/-- Unfolding `parse` on an input whose tree walk fails without setting a
message: the generic fallback message is filled in and the partially decoded
modules stay in the result. -/
theorem parse_unfold_tree_fail (data : List Nat) (st1 : ParseState)
    (r1 : FlirtResult) (stF : ParseState) (rF : FlirtResult)
    (mods : List FlirtModule)
    (hg : isFlirt data = true)
    (hh : parseHeader
        { body := data, pos := 0, eof := false, err := false
          version := data.getD 6 0 % 256 } {} = (true, st1, r1))
    (hcomp : r1.header.features &&& IDASIG_FEATURE_COMPRESSED = 0)
    (ht : parseTree (2 * data.length + 4) st1 r1 [] [] = (false, stF, rF, mods))
    (hmsg : rF.errorMessage = "") :
    parse data =
      { rF with modules := mods, errorMessage := "Parse error in signature tree" } := by
  unfold parse
  rw [hg]
  rw [if_neg (by simp)]
  dsimp only
  rw [hh]
  dsimp only
  rw [if_neg (by simp [hcomp])]
  rw [ht]
  dsimp only
  rw [if_pos (by simpa using hmsg)]

/-- The header record decoded from the all-zero minimal headers. -/
def exHeader (v : Nat) : FlirtHeader := { version := v, ctype := List.replicate 12 0 }

/-- The result record right after decoding a minimal header. -/
def exResult (v : Nat) : FlirtResult := { header := exHeader v }

/-- The single module of scenario A. -/
def exModA : FlirtModule :=
  { patternPath := [], crcLength := 4, crc16 := 4660, length := 5,
    publicFunctions := [{ offset := 8, name := [102, 111, 111], isLocal := false, isCollision := false }],
    tailBytes := [], referencedFunctions := [] }

theorem parse_eval_exInputA :
    parse exInputA = { exResult 5 with modules := [exModA], success := true } := by
  apply parse_unfold_success exInputA
      { body := exInputA, pos := 37, eof := false, err := false, version := 5 }
      (exResult 5)
      { body := exInputA, pos := 47, eof := false, err := false, version := 5 }
      (exResult 5) [exModA]
  · decide
  · decide
  · decide
  · decide

theorem parse_eval_cex7Input :
    parse cex7Input =
      { exResult 5 with
        modules := [{ exModA with patternPath := [⟨[170], [0]⟩] }]
        errorMessage := "Parse error in signature tree" } := by
  apply parse_unfold_tree_fail cex7Input
      { body := cex7Input, pos := 37, eof := false, err := false, version := 5 }
      (exResult 5)
      { body := cex7Input, pos := 51, eof := true, err := false, version := 5 }
      (exResult 5) [{ exModA with patternPath := [⟨[170], [0]⟩] }]
  · decide
  · decide
  · decide
  · decide
  · decide

/-- C7 counterexample: on `cex7Input`, `parse` fails (the second tree child is
truncated) yet the result still carries the module decoded from the first
child, so a failed result's module list is not empty. -/
theorem parse_failure_message_c7_cex :
    (parse cex7Input).success = false ∧ (parse cex7Input).modules ≠ [] := by
  rw [parse_eval_cex7Input]
  decide

/-- Witness for C7 (amended) at the same concrete failing input. -/
theorem parse_failure_message_c7_witness :
    (parse cex7Input).success = false ∧ (parse cex7Input).errorMessage ≠ "" :=
  ⟨by rw [parse_eval_cex7Input]; decide,
    parse_failure_message_c7 cex7Input (by rw [parse_eval_cex7Input]; decide)⟩

/-! ## C4: variant-mask geometry of the node decoder -/

/-- The bytes of the buffer from position `p`, `n` of them, as `quint8`
values — the sequence a run of `readByte`s returns. -/
def bytesAt (body : List Nat) (p n : Nat) : List Nat :=
  ((body.drop p).take n).map (· % 256)

theorem bytesAt_zero (body : List Nat) (p : Nat) : bytesAt body p 0 = [] := rfl

theorem bytesAt_cons (body : List Nat) (p n : Nat) (h : p < body.length) :
    bytesAt body p (n + 1) = (body.getD p 0 % 256) :: bytesAt body (p + 1) n := by
  unfold bytesAt
  rw [List.drop_eq_getElem_cons h, List.take_succ_cons, List.map_cons]
  simp [List.getD_eq_getElem?_getD, List.getElem?_eq_getElem h]

theorem readByte_ok (st : ParseState) (h : st.pos < st.body.length)
    (he : st.eof = false) (hr : st.err = false) :
    readByte st = (st.body.getD st.pos 0 % 256, { st with pos := st.pos + 1 }) := by
  unfold readByte
  rw [if_neg]
  simp [he, hr, decide_eq_false (not_le.mpr h)]

theorem getD_range_map (f : Nat → Nat) (L i : Nat) (h : i < L) :
    ((List.range L).map f).getD i 0 = f i := by
  rw [List.getD_eq_getElem?_getD, List.getElem?_map, List.getElem?_range h]
  rfl

theorem pow_and_shift_ne (k n : Nat) (h : k ≠ n) : 2 ^ k &&& (1 <<< n) = 0 := by
  rw [Nat.one_shiftLeft, Nat.and_two_pow]
  simp [Nat.testBit_two_pow, h]

theorem pow_and_shift_self (n : Nat) : (2 ^ n : Nat) &&& (1 <<< n) ≠ 0 := by
  rw [Nat.one_shiftLeft, Nat.and_two_pow]
  simp [Nat.testBit_two_pow]

/-- Below the set bit every loop step is concrete: the decoder copies the
next `n` stream bytes and leaves the mask clear. -/
theorem readNodeLoop_pow_low (k : Nat) :
    ∀ (n : Nat) (st : ParseState), n ≤ k → st.eof = false → st.err = false →
    st.pos + n ≤ st.body.length →
    readNodeLoop (2 ^ k) n st =
      some (bytesAt st.body st.pos n, List.replicate n 0,
        { st with pos := st.pos + n }) := by
  intro n
  induction n with
  | zero => intro st _ _ _ _; simp [readNodeLoop, bytesAt_zero]
  | succ n ih =>
    intro st hn he hr hlen
    unfold readNodeLoop
    rw [if_neg (by simpa using pow_and_shift_ne k n (by omega))]
    rw [if_neg (by simp [he, hr])]
    rw [readByte_ok st (by omega) he hr]
    dsimp only
    rw [ih { st with pos := st.pos + 1 } (by omega) he hr (by dsimp only; omega)]
    dsimp only
    rw [bytesAt_cons st.body st.pos n (by omega)]
    rw [show st.pos + 1 + n = st.pos + (n + 1) from by omega]
    rfl

/-- With exactly bit `k` set and more than `k` bytes to go, the decoder
reads the first `n - 1 - k` bytes, stores the sentinel 0 with mask 1 at
index `n - 1 - k`, then reads the remaining `k` bytes. -/
theorem readNodeLoop_pow_main (k : Nat) :
    ∀ (n : Nat) (st : ParseState), k < n → st.eof = false → st.err = false →
    st.pos + n ≤ st.body.length →
    readNodeLoop (2 ^ k) n st =
      some (bytesAt st.body st.pos (n - 1 - k) ++
              0 :: bytesAt st.body (st.pos + (n - 1 - k)) k,
            (List.range n).map (fun i => if i = n - 1 - k then 1 else 0),
            { st with pos := st.pos + (n - 1) }) := by
  intro n
  induction n with
  | zero => intro st h; omega
  | succ n ih =>
    intro st hn he hr hlen
    rcases Nat.lt_or_ge k n with hkn | hkn
    · -- bit n is clear: concrete byte, recurse
      unfold readNodeLoop
      rw [if_neg (by simpa using pow_and_shift_ne k n (by omega))]
      rw [if_neg (by simp [he, hr])]
      rw [readByte_ok st (by omega) he hr]
      dsimp only
      rw [ih { st with pos := st.pos + 1 } hkn he hr (by dsimp only; omega)]
      dsimp only
      have h3 : (List.range (n + 1)).map (fun i => if i = n + 1 - 1 - k then 1 else 0) =
          0 :: (List.range n).map (fun i => if i = n - 1 - k then 1 else 0) := by
        rw [List.range_succ_eq_map, List.map_cons, if_neg (by omega), List.map_map]
        congr 1
        apply List.map_congr_left
        intro i _
        simp only [Function.comp]
        by_cases hik : i = n - 1 - k
        · rw [if_pos hik, if_pos (by omega)]
        · rw [if_neg hik, if_neg (by omega)]
      rw [h3]
      rw [show n + 1 - 1 - k = (n - 1 - k) + 1 from by omega]
      rw [bytesAt_cons _ _ _ (by omega)]
      rw [show st.pos + 1 + (n - 1 - k) = st.pos + (n - 1 - k + 1) from by omega]
      rw [show st.pos + 1 + (n - 1) = st.pos + (n + 1 - 1) from by omega]
      rfl
    · -- bit n is the set bit: variant byte, all lower bits clear
      have hkn' : k = n := by omega
      subst hkn'
      unfold readNodeLoop
      rw [if_pos (pow_and_shift_self k)]
      rw [readNodeLoop_pow_low k k st (le_refl k) he hr (by omega)]
      dsimp only
      have h3 : (List.range (k + 1)).map (fun i => if i = 0 then 1 else 0) =
          1 :: List.replicate k 0 := by
        rw [List.range_succ_eq_map, List.map_cons, if_pos rfl, List.map_map]
        congr 1
        rw [show ((fun i => if i = 0 then 1 else 0) ∘ (· + 1)) = fun _ => (0 : Nat) from ?_]
        · simp [List.map_const']
        · funext i
          simp [Function.comp]
      rw [show k + 1 - 1 - k = 0 from by omega]
      rw [h3, bytesAt_zero]
      rw [show st.pos + 0 = st.pos from by omega]
      rw [show k + 1 - 1 = k from by omega]
      rfl

theorem bytesAt_length (body : List Nat) (p n : Nat) (h : p + n ≤ body.length) :
    (bytesAt body p n).length = n := by
  unfold bytesAt
  rw [List.length_map, List.length_take, List.length_drop]
  omega

/-- C4: decoding a node of length `L` (1 ≤ L ≤ 63) whose variant mask has
exactly bit `k` set (`k < L`) marks byte index `L - 1 - k` as variant (mask
entry 1, stored byte 0) and every other index as concrete, the concrete
bytes being the next `L - 1` stream bytes in order. -/
theorem node_variant_geometry_c4 (st : ParseState) (L k : Nat)
    (hL1 : 1 ≤ L) (hL2 : L ≤ 63) (hk : k < L)
    (he : st.eof = false) (hr : st.err = false)
    (hlen : st.pos + L ≤ st.body.length) :
    readNodeBytes st L (2 ^ k) =
      some (⟨bytesAt st.body st.pos (L - 1 - k) ++
               0 :: bytesAt st.body (st.pos + (L - 1 - k)) k,
             (List.range L).map (fun i => if i = L - 1 - k then 1 else 0)⟩,
            { st with pos := st.pos + (L - 1) }) ∧
    ((List.range L).map (fun i => if i = L - 1 - k then 1 else 0)).getD (L - 1 - k) 0 = 1 ∧
    (∀ i, i < L → i ≠ L - 1 - k →
      ((List.range L).map (fun i => if i = L - 1 - k then 1 else 0)).getD i 0 = 0) ∧
    (bytesAt st.body st.pos (L - 1 - k) ++
        0 :: bytesAt st.body (st.pos + (L - 1 - k)) k).getD (L - 1 - k) 0 = 0 := by
  refine ⟨?_, ?_, ?_, ?_⟩
  · unfold readNodeBytes
    rw [if_neg (by omega)]
    rw [readNodeLoop_pow_main k L st hk he hr hlen]
  · rw [getD_range_map _ _ _ (by omega), if_pos rfl]
  · intro i hiL hne
    rw [getD_range_map _ _ _ hiL, if_neg hne]
  · have hlenp : (bytesAt st.body st.pos (L - 1 - k)).length = L - 1 - k :=
      bytesAt_length _ _ _ (by omega)
    rw [List.getD_eq_getElem?_getD, List.getElem?_append_right (by omega)]
    rw [hlenp]
    simp

/-- Witness for C4: a 3-byte node with mask bit 1 set marks index 1 variant
and reads bytes 9 and 10 around it. -/
theorem node_variant_geometry_c4_witness :
    readNodeBytes { body := [9, 10, 11], pos := 0, eof := false, err := false, version := 0 }
        3 (2 ^ 1) =
      some (⟨[9, 0, 10], [0, 1, 0]⟩,
        { body := [9, 10, 11], pos := 2, eof := false, err := false, version := 0 }) := by
  have h := (node_variant_geometry_c4
    { body := [9, 10, 11], pos := 0, eof := false, err := false, version := 0 }
    3 1 (by decide) (by decide) (by decide) rfl rfl (by decide)).1
  rw [h]
  decide

/-! ## C10: the 1024-byte name cap feeds a printable byte into the flags -/

/-- Running the name loop with `m` slots of capacity left over a stretch of
printable (`≥ 0x20`) bytes: the loop appends exactly `m` bytes and hands the
next stream byte back as the flags byte, whatever its value. -/
theorem readNameLoop_fill :
    ∀ (m fuel : Nat) (st : ParseState) (b : Nat) (acc : List Nat),
    1 ≤ m → acc.length + m = FLIRT_NAME_MAX →
    0x20 ≤ b → st.eof = false → st.err = false →
    (∀ i, i < m - 1 → 0x20 ≤ st.body.getD (st.pos + i) 0 % 256) →
    st.pos + m ≤ st.body.length → m + 1 ≤ fuel →
    readNameLoop fuel st b acc =
      some (acc ++ b :: bytesAt st.body st.pos (m - 1),
            st.body.getD (st.pos + (m - 1)) 0 % 256,
            { st with pos := st.pos + m }) := by
  intro m
  induction m with
  | zero => intro fuel st b acc h1; omega
  | succ m ih =>
    intro fuel st b acc _ hcap hb he hr hbytes hlen hfuel
    obtain ⟨fuel', rfl⟩ : ∃ f, fuel = f + 1 := ⟨fuel - 1, by omega⟩
    unfold readNameLoop
    rw [if_pos ⟨hb, by unfold FLIRT_NAME_MAX at hcap ⊢; omega⟩]
    rw [readByte_ok st (by omega) he hr]
    dsimp only
    rw [if_neg (by simp [he, hr])]
    rcases Nat.eq_zero_or_pos m with hm | hm
    · subst hm
      obtain ⟨fuel'', rfl⟩ : ∃ f, fuel' = f + 1 := ⟨fuel' - 1, by omega⟩
      unfold readNameLoop
      rw [if_neg]
      · rw [bytesAt_zero]
        rfl
      · intro hcon
        have := hcon.2
        rw [List.length_append] at this
        unfold FLIRT_NAME_MAX at hcap this
        simp at this
        omega
    · rw [ih fuel' { st with pos := st.pos + 1 }
        (st.body.getD st.pos 0 % 256) (acc ++ [b]) hm
        (by rw [List.length_append]; unfold FLIRT_NAME_MAX at hcap ⊢; simp; omega)
        (hbytes 0 (by omega)) he hr
        (fun i hi => by
          have := hbytes (i + 1) (by omega)
          dsimp only
          rw [show st.pos + 1 + i = st.pos + (i + 1) from by omega]
          exact this)
        (by dsimp only; omega) (by omega)]
      dsimp only
      rw [show m + 1 - 1 = (m - 1) + 1 from by omega]
      rw [bytesAt_cons _ _ _ (by omega)]
      rw [show st.pos + 1 + (m - 1) = st.pos + (m - 1 + 1) from by omega]
      rw [show st.pos + 1 + m = st.pos + (m + 1) from by omega]
      rw [List.append_assoc]
      rfl

/-- C10: when a function name reaches the 1024-byte cap and the next stream
byte is printable (`≥ 0x20`), the loop stops at exactly 1024 name bytes and
that printable byte is returned as the module flags byte — the continuation
and section bits are then drawn from would-be name text. -/
theorem name_cap_flags_c10 (st : ParseState) (b fuel : Nat)
    (hb : 0x20 ≤ b) (he : st.eof = false) (hr : st.err = false)
    (hbytes : ∀ i, i < 1024 → 0x20 ≤ st.body.getD (st.pos + i) 0 % 256)
    (hlen : st.pos + 1024 ≤ st.body.length)
    (hfuel : 1025 ≤ fuel) :
    readNameLoop fuel st b [] =
      some (b :: bytesAt st.body st.pos 1023,
            st.body.getD (st.pos + 1023) 0 % 256,
            { st with pos := st.pos + 1024 }) ∧
    (b :: bytesAt st.body st.pos 1023).length = FLIRT_NAME_MAX ∧
    0x20 ≤ st.body.getD (st.pos + 1023) 0 % 256 := by
  refine ⟨?_, ?_, hbytes 1023 (by omega)⟩
  · have h := readNameLoop_fill 1024 fuel st b [] (by omega)
      (by unfold FLIRT_NAME_MAX; rfl)
      hb he hr (fun i hi => hbytes i (by omega)) hlen hfuel
    rw [h]
    rfl
  · rw [List.length_cons, bytesAt_length _ _ _ (by omega)]
    rfl

set_option maxRecDepth 8192 in
/-- Witness for C10 over a buffer of 1300 printable bytes. -/
theorem name_cap_flags_c10_witness :
    readNameLoop 1025 { body := List.replicate 1300 65, pos := 0, eof := false, err := false, version := 0 } 65 [] =
      some (65 :: bytesAt (List.replicate 1300 65) 0 1023,
            (List.replicate 1300 65).getD (0 + 1023) 0 % 256,
            { body := List.replicate 1300 65, pos := 0 + 1024, eof := false, err := false, version := 0 }) ∧
    (65 :: bytesAt (List.replicate 1300 65) 0 1023).length = FLIRT_NAME_MAX ∧
    0x20 ≤ (List.replicate 1300 65).getD (0 + 1023) 0 % 256 :=
  name_cap_flags_c10
    { body := List.replicate 1300 65, pos := 0, eof := false, err := false, version := 0 }
    65 1025 (by decide) rfl rfl
    (fun i hi => by
      dsimp only
      rw [show (0 + i) = i from by omega]
      rw [List.getD_eq_getElem?_getD, List.getElem?_replicate, if_pos (by omega)]
      decide)
    (by dsimp only; rw [List.length_replicate]; omega)
    (by omega)

/-! ## C3: flag-controlled tail-byte and referenced-function blocks -/

theorem tailLoop_count :
    ∀ (n : Nat) (st : ParseState) (mod mod' : FlirtModule) (st' : ParseState),
    tailLoop n st mod = some (mod', st') →
    mod'.tailBytes.length = mod.tailBytes.length + n ∧
    mod'.referencedFunctions = mod.referencedFunctions ∧
    mod'.publicFunctions = mod.publicFunctions ∧
    mod'.patternPath = mod.patternPath ∧
    mod'.crcLength = mod.crcLength ∧ mod'.crc16 = mod.crc16 ∧
    mod'.length = mod.length ∧ st'.version = st.version := by
  intro n
  induction n with
  | zero =>
    intro st mod mod' st' h
    unfold tailLoop at h
    simp only [Option.some.injEq, Prod.mk.injEq] at h
    rw [← h.1, ← h.2]
    exact ⟨rfl, rfl, rfl, rfl, rfl, rfl, rfl, rfl⟩
  | succ n ih =>
    intro st mod mod' st' h
    unfold tailLoop at h
    dsimp only at h
    generalize hg : (if 9 ≤ st.version then readMultipleBytes st else readMax2Bytes st) = dr at h
    have hd : StInv st dr.2 := by
      rw [← hg]
      split
      · exact readMultipleBytes_stinv st
      · exact readMax2Bytes_stinv st
    repeat' split at h
    all_goals
      first
      | exact absurd h (by simp)
      | (obtain ⟨h1, h2, h3, h4, h5, h6, h7, h8⟩ := ih _ _ _ _ h
         dsimp only at h1 h2 h3 h4 h5 h6 h7 h8
         simp only [List.length_append, List.length_singleton] at h1
         have hbv := readByte_version dr.2
         exact ⟨by omega, h2, h3, h4, h5, h6, h7,
           by rw [h8, hbv, hd.2.2.1]⟩)

theorem readModuleTailBytes_count (st : ParseState) (mod mod' : FlirtModule)
    (st' : ParseState) (h : readModuleTailBytes st mod = some (mod', st')) :
    mod'.tailBytes.length =
      mod.tailBytes.length + (if 8 ≤ st.version then (readByte st).1 else 1) ∧
    mod'.referencedFunctions = mod.referencedFunctions ∧
    mod'.publicFunctions = mod.publicFunctions ∧
    mod'.patternPath = mod.patternPath ∧ st'.version = st.version := by
  unfold readModuleTailBytes at h
  dsimp only at h
  split at h
  · rename_i hv
    split at h
    · exact absurd h (by simp)
    · have := tailLoop_count _ _ _ _ _ h
      rw [if_pos hv]
      exact ⟨this.1, this.2.1, this.2.2.1, this.2.2.2.1,
        by rw [this.2.2.2.2.2.2.2, readByte_version]⟩
  · rename_i hv
    split at h
    · exact absurd h (by simp)
    · have := tailLoop_count _ _ _ _ _ h
      rw [if_neg hv]
      exact ⟨this.1, this.2.1, this.2.2.1, this.2.2.2.1, this.2.2.2.2.2.2.2⟩

theorem refLoop_count :
    ∀ (n : Nat) (st : ParseState) (mod mod' : FlirtModule) (st' : ParseState),
    refLoop n st mod = some (mod', st') →
    mod'.referencedFunctions.length = mod.referencedFunctions.length + n ∧
    mod'.tailBytes = mod.tailBytes ∧
    mod'.publicFunctions = mod.publicFunctions ∧
    mod'.patternPath = mod.patternPath ∧
    mod'.crcLength = mod.crcLength ∧ mod'.crc16 = mod.crc16 ∧
    mod'.length = mod.length := by
  intro n
  induction n with
  | zero =>
    intro st mod mod' st' h
    unfold refLoop at h
    simp only [Option.some.injEq, Prod.mk.injEq] at h
    rw [← h.1]
    exact ⟨rfl, rfl, rfl, rfl, rfl, rfl, rfl⟩
  | succ n ih =>
    intro st mod mod' st' h
    unfold refLoop at h
    dsimp only at h
    repeat' split at h
    all_goals
      first
      | exact absurd h (by simp)
      | (obtain ⟨h1, h2, h3, h4, h5, h6, h7⟩ := ih _ _ _ _ h
         dsimp only at h1 h2 h3 h4 h5 h6 h7
         simp only [List.length_append, List.length_singleton] at h1
         exact ⟨by omega, h2, h3, h4, h5, h6, h7⟩)

theorem readNameLoop_pres :
    ∀ (fuel : Nat) (st : ParseState) (b : Nat) (acc nm : List Nat)
      (fl : Nat) (st' : ParseState),
    readNameLoop fuel st b acc = some (nm, fl, st') →
    st'.version = st.version ∧ st'.body = st.body ∧ st'.err = st.err := by
  intro fuel
  induction fuel with
  | zero => intro st b acc nm fl st' h; exact absurd h (by simp [readNameLoop])
  | succ fuel ih =>
    intro st b acc nm fl st' h
    unfold readNameLoop at h
    dsimp only at h
    split at h
    · split at h
      · exact absurd h (by simp)
      · have hrec := ih _ _ _ _ _ _ h
        have hb := readByte_stinv st
        exact ⟨by rw [hrec.1, hb.2.2.1], by rw [hrec.2.1, hb.1],
          by rw [hrec.2.2, hb.2.1]⟩
    · simp only [Option.some.injEq, Prod.mk.injEq] at h
      rw [← h.2.2]
      exact ⟨rfl, rfl, rfl⟩

theorem readFnLoop_pres :
    ∀ (fuel : Nat) (st : ParseState) (offset : Nat) (acc fns : List FlirtFunction)
      (flags : Nat) (st' : ParseState),
    readFnLoop fuel st offset acc = some (fns, flags, st') →
    st'.version = st.version ∧ st'.body = st.body ∧ st'.err = st.err := by
  intro fuel
  induction fuel with
  | zero => intro st offset acc fns flags st' h; exact absurd h (by simp [readFnLoop])
  | succ fuel ih =>
    intro st offset acc fns flags st' h
    unfold readFnLoop at h
    dsimp only at h
    generalize hg : (if 9 ≤ st.version then readMultipleBytes st else readMax2Bytes st) = dr at h
    have hd : StInv st dr.2 := by
      rw [← hg]
      split
      · exact readMultipleBytes_stinv st
      · exact readMax2Bytes_stinv st
    split at h
    · exact absurd h (by simp)
    · have hb0 := readByte_stinv dr.2
      have hd0 := StInv.trans hd hb0
      split at h
      · exact absurd h (by simp)
      · split at h
        · -- attribute byte, extra read, then name loop
          have hb1 := readByte_stinv (readByte dr.2).2
          have hd1 := StInv.trans hd0 hb1
          split at h
          · exact absurd h (by simp)
          · split at h
            · exact absurd h (by simp)
            · rename_i nm0 fl0 st4 hname
              have hn := readNameLoop_pres _ _ _ _ _ _ _ hname
              split at h
              · have hrec := ih _ _ _ _ _ _ h
                refine ⟨?_, ?_, ?_⟩
                · rw [hrec.1, hn.1, hd1.2.2.1]
                · rw [hrec.2.1, hn.2.1, hd1.1]
                · rw [hrec.2.2, hn.2.2, hd1.2.1]
              · simp only [Option.some.injEq, Prod.mk.injEq] at h
                rw [← h.2.2]
                refine ⟨?_, ?_, ?_⟩
                · rw [hn.1, hd1.2.2.1]
                · rw [hn.2.1, hd1.1]
                · rw [hn.2.2, hd1.2.1]
        · split at h
          · exact absurd h (by simp)
          · rename_i nm0 fl0 st4 hname
            have hn := readNameLoop_pres _ _ _ _ _ _ _ hname
            split at h
            · have hrec := ih _ _ _ _ _ _ h
              refine ⟨?_, ?_, ?_⟩
              · rw [hrec.1, hn.1, hd0.2.2.1]
              · rw [hrec.2.1, hn.2.1, hd0.1]
              · rw [hrec.2.2, hn.2.2, hd0.2.1]
            · simp only [Option.some.injEq, Prod.mk.injEq] at h
              rw [← h.2.2]
              refine ⟨?_, ?_, ?_⟩
              · rw [hn.1, hd0.2.2.1]
              · rw [hn.2.1, hd0.1]
              · rw [hn.2.2, hd0.2.1]

theorem readModulePublicFunctions_spec (fuel : Nat) (st : ParseState)
    (mod mod' : FlirtModule) (flags : Nat) (st' : ParseState)
    (h : readModulePublicFunctions fuel st mod = some (mod', flags, st')) :
    mod'.patternPath = mod.patternPath ∧ mod'.tailBytes = mod.tailBytes ∧
    mod'.referencedFunctions = mod.referencedFunctions ∧
    mod'.crcLength = mod.crcLength ∧ mod'.crc16 = mod.crc16 ∧
    mod'.length = mod.length ∧
    readFnLoop fuel st 0 mod.publicFunctions = some (mod'.publicFunctions, flags, st') ∧
    st'.version = st.version := by
  unfold readModulePublicFunctions at h
  split at h
  · rename_i fns fl st2 heq
    simp only [Option.some.injEq, Prod.mk.injEq] at h
    obtain ⟨hmod, hfl, hst⟩ := h
    subst hfl hst
    rw [← hmod]
    refine ⟨rfl, rfl, rfl, rfl, rfl, rfl, ?_, ?_⟩
    · exact heq
    · exact (readFnLoop_pres _ _ _ _ _ _ _ heq).1
  · exact absurd h (by simp)

theorem readModuleReferencedFunctions_count (st : ParseState)
    (mod mod' : FlirtModule) (st' : ParseState)
    (h : readModuleReferencedFunctions st mod = some (mod', st')) :
    mod'.referencedFunctions.length =
      mod.referencedFunctions.length + (if 8 ≤ st.version then (readByte st).1 else 1) ∧
    mod'.tailBytes = mod.tailBytes ∧
    mod'.publicFunctions = mod.publicFunctions ∧
    mod'.patternPath = mod.patternPath := by
  unfold readModuleReferencedFunctions at h
  dsimp only at h
  split at h
  · rename_i hv
    split at h
    · exact absurd h (by simp)
    · have := refLoop_count _ _ _ _ _ h
      rw [if_pos hv]
      exact ⟨this.1, this.2.1, this.2.2.1, this.2.2.2.1⟩
  · rename_i hv
    split at h
    · exact absurd h (by simp)
    · have := refLoop_count _ _ _ _ _ h
      rw [if_neg hv]
      exact ⟨this.1, this.2.1, this.2.2.1, this.2.2.2.1⟩

theorem parseLeafModule_flags (fuel : Nat) (st : ParseState) (cl c16 : Nat)
    (path : List FlirtPatternNode) (mod : FlirtModule) (flags : Nat)
    (st' : ParseState)
    (h : parseLeafModule fuel st cl c16 path = some (mod, flags, st')) :
    mod.patternPath = path ∧
    (flags &&& IDASIG_PARSE_READ_TAIL_BYTES = 0 → mod.tailBytes = []) ∧
    (flags &&& IDASIG_PARSE_READ_REFERENCED_FUNCTIONS = 0 →
      mod.referencedFunctions = []) ∧
    (flags &&& IDASIG_PARSE_READ_TAIL_BYTES ≠ 0 → st.version < 8 →
      mod.tailBytes.length = 1) ∧
    (flags &&& IDASIG_PARSE_READ_REFERENCED_FUNCTIONS ≠ 0 → st.version < 8 →
      mod.referencedFunctions.length = 1) ∧
    (∃ fuel2 st2 flags2 st3,
      readFnLoop fuel2 st2 0 [] = some (mod.publicFunctions, flags2, st3)) := by
  unfold parseLeafModule at h
  dsimp only at h
  generalize hg : (if 9 ≤ st.version then readMultipleBytes st else readMax2Bytes st) = dr at h
  have hd : StInv st dr.2 := by
    rw [← hg]
    split
    · exact readMultipleBytes_stinv st
    · exact readMax2Bytes_stinv st
  split at h
  · exact absurd h (by simp)
  · split at h
    · exact absurd h (by simp)
    · rename_i mod1 fl st2 hpub
      obtain ⟨p1, p2, p3, p4, p5, p6, p7, p8⟩ :=
        readModulePublicFunctions_spec _ _ _ _ _ _ hpub
      dsimp only at p1 p2 p3 p4 p5 p6 p7 p8
      have hv2 : st2.version = st.version := by rw [p8, hd.2.2.1]
      split at h
      · exact absurd h (by simp)
      · rename_i mod2 st3 heqT
        split at h
        · exact absurd h (by simp)
        · rename_i mod3 st4 heqR
          simp only [Option.some.injEq, Prod.mk.injEq] at h
          obtain ⟨hmod, hfl, _⟩ := h
          subst hmod hfl
          split at heqT
          · -- tail flag set: tail block decoded at st2
            rename_i hf2
            obtain ⟨t1, t2, t3, t4, t5⟩ := readModuleTailBytes_count _ _ _ _ heqT
            split at heqR
            · -- ref flag set: ref block decoded at st3
              rename_i hf4
              obtain ⟨r1, r2, r3, r4⟩ := readModuleReferencedFunctions_count _ _ _ _ heqR
              refine ⟨by rw [r4, t4, p1], ?_, ?_, ?_, ?_, ?_⟩
              · intro hc; exact absurd hf2 (by simpa using hc)
              · intro hc; exact absurd hf4 (by simpa using hc)
              · intro _ hv8
                rw [r2, t1, p2, if_neg (by rw [hv2]; omega)]
                rfl
              · intro _ hv8
                rw [r1, t2, p3]
                simp only [List.length_nil, Nat.zero_add]
                rw [if_neg (by rw [t5, hv2]; omega)]
              · exact ⟨fuel, dr.2, fl, st2, by rw [r3, t3, p7]⟩
            · -- ref flag clear
              rename_i hf4
              simp only [Option.some.injEq, Prod.mk.injEq] at heqR
              obtain ⟨hm23, _⟩ := heqR
              subst hm23
              refine ⟨by rw [t4, p1], ?_, ?_, ?_, ?_, ?_⟩
              · intro hc; exact absurd hf2 (by simpa using hc)
              · intro _; rw [t2, p3]
              · intro _ hv8
                rw [t1, p2, if_neg (by rw [hv2]; omega)]
                rfl
              · intro hc; exact absurd hc (by simpa using hf4)
              · exact ⟨fuel, dr.2, fl, st2, by rw [t3, p7]⟩
          · -- tail flag clear
            rename_i hf2
            simp only [Option.some.injEq, Prod.mk.injEq] at heqT
            obtain ⟨hm12, hs23⟩ := heqT
            subst hm12 hs23
            split at heqR
            · rename_i hf4
              obtain ⟨r1, r2, r3, r4⟩ := readModuleReferencedFunctions_count _ _ _ _ heqR
              refine ⟨by rw [r4, p1], ?_, ?_, ?_, ?_, ?_⟩
              · intro _; rw [r2, p2]
              · intro hc; exact absurd hf4 (by simpa using hc)
              · intro hc; exact absurd hc (by simpa using hf2)
              · intro _ hv8
                rw [r1, p3]
                simp only [List.length_nil, Nat.zero_add]
                rw [if_neg (by rw [hv2]; omega)]
              · exact ⟨fuel, dr.2, fl, st2, by rw [r3, p7]⟩
            · rename_i hf4
              simp only [Option.some.injEq, Prod.mk.injEq] at heqR
              obtain ⟨hm13, _⟩ := heqR
              subst hm13
              refine ⟨p1, fun _ => p2, fun _ => p3, ?_, ?_, ?_⟩
              · intro hc; exact absurd hc (by simpa using hf2)
              · intro hc; exact absurd hc (by simpa using hf4)
              · exact ⟨fuel, dr.2, fl, st2, p7⟩

/-- C3 as amended: a module's `tailBytes` is empty when flag bit 0x02 was
clear, and likewise for 0x04 and `referencedFunctions`; when the bit is set,
versions 5..7 decode exactly one entry, while from version 8 on the block
holds as many entries as its count byte — which may be zero, so the claimed
iff fails for version ≥ 8. -/
theorem flag_fidelity_c3 :
    (∀ (fuel : Nat) (st : ParseState) (cl c16 : Nat)
      (path : List FlirtPatternNode) (mod : FlirtModule) (flags : Nat)
      (st' : ParseState),
      parseLeafModule fuel st cl c16 path = some (mod, flags, st') →
      ((flags &&& IDASIG_PARSE_READ_TAIL_BYTES = 0 → mod.tailBytes = []) ∧
       (flags &&& IDASIG_PARSE_READ_REFERENCED_FUNCTIONS = 0 →
         mod.referencedFunctions = []) ∧
       (flags &&& IDASIG_PARSE_READ_TAIL_BYTES ≠ 0 → st.version < 8 →
         mod.tailBytes.length = 1) ∧
       (flags &&& IDASIG_PARSE_READ_REFERENCED_FUNCTIONS ≠ 0 → st.version < 8 →
         mod.referencedFunctions.length = 1))) ∧
    (∀ (st : ParseState) (mod mod' : FlirtModule) (st' : ParseState),
      readModuleTailBytes st mod = some (mod', st') →
      mod'.tailBytes.length =
        mod.tailBytes.length + (if 8 ≤ st.version then (readByte st).1 else 1)) ∧
    (∀ (st : ParseState) (mod mod' : FlirtModule) (st' : ParseState),
      readModuleReferencedFunctions st mod = some (mod', st') →
      mod'.referencedFunctions.length =
        mod.referencedFunctions.length + (if 8 ≤ st.version then (readByte st).1 else 1)) := by
  refine ⟨?_, ?_, ?_⟩
  · intro fuel st cl c16 path mod flags st' h
    obtain ⟨_, h2, h3, h4, h5, _⟩ := parseLeafModule_flags _ _ _ _ _ _ _ _ h
    exact ⟨h2, h3, h4, h5⟩
  · intro st mod mod' st' h
    exact (readModuleTailBytes_count _ _ _ _ h).1
  · intro st mod mod' st' h
    exact (readModuleReferencedFunctions_count _ _ _ _ h).1

/-- A version-8 file whose single module has flag byte 0x02 followed by a
zero tail-byte count. -/
def cex3Input : List Nat := v8Header ++ [0, 4, 18, 52, 5, 8, 102, 111, 111, 2, 0]

theorem parse_eval_cex3Input :
    parse cex3Input = { exResult 8 with modules := [exModA], success := true } := by
  apply parse_unfold_success cex3Input
      { body := cex3Input, pos := 43, eof := false, err := false, version := 8 }
      (exResult 8)
      { body := cex3Input, pos := 54, eof := false, err := false, version := 8 }
      (exResult 8) [exModA]
  · decide
  · decide
  · decide
  · decide

/-- C3 counterexample: `cex3Input` parses successfully, its only module's
terminating flag byte is 0x02 (so `READ_TAIL_BYTES` is set), yet the module's
`tailBytes` is empty because the version-8 count byte is zero — refuting the
claimed iff. -/
theorem flag_fidelity_c3_cex :
    (parse cex3Input).success = true ∧
    (parse cex3Input).modules.map (fun m => m.tailBytes) = [[]] ∧
    (parseLeafModule 20
        { body := cex3Input, pos := 47, eof := false, err := false, version := 8 }
        4 4660 []).map (fun x => (x.1.tailBytes, x.2.1)) = some ([], 2) := by
  refine ⟨?_, ?_, ?_⟩
  · rw [parse_eval_cex3Input]
  · rw [parse_eval_cex3Input]
    decide
  · decide

/-- Witness for C3 (amended) at a concrete version-5 module with flags 0x06
and at concrete tail/ref blocks. -/
theorem flag_fidelity_c3_witness :
    (((6 : Nat) &&& IDASIG_PARSE_READ_TAIL_BYTES = 0 →
        FlirtModule.tailBytes
          { patternPath := [], crcLength := 4, crc16 := 4660, length := 5,
            publicFunctions := [⟨8, [102, 111, 111], false, false⟩],
            tailBytes := [⟨3, 7⟩], referencedFunctions := [⟨2, [65], false⟩] } = []) ∧
      ((6 : Nat) &&& IDASIG_PARSE_READ_REFERENCED_FUNCTIONS = 0 →
        FlirtModule.referencedFunctions
          { patternPath := [], crcLength := 4, crc16 := 4660, length := 5,
            publicFunctions := [⟨8, [102, 111, 111], false, false⟩],
            tailBytes := [⟨3, 7⟩], referencedFunctions := [⟨2, [65], false⟩] } = []) ∧
      ((6 : Nat) &&& IDASIG_PARSE_READ_TAIL_BYTES ≠ 0 →
        ParseState.version
            { body := [5, 8, 102, 111, 111, 6, 3, 7, 2, 1, 65], pos := 0,
              eof := false, err := false, version := 5 } < 8 →
        (FlirtModule.tailBytes
          { patternPath := [], crcLength := 4, crc16 := 4660, length := 5,
            publicFunctions := [⟨8, [102, 111, 111], false, false⟩],
            tailBytes := [⟨3, 7⟩],
            referencedFunctions := [⟨2, [65], false⟩] }).length = 1) ∧
      ((6 : Nat) &&& IDASIG_PARSE_READ_REFERENCED_FUNCTIONS ≠ 0 →
        ParseState.version
            { body := [5, 8, 102, 111, 111, 6, 3, 7, 2, 1, 65], pos := 0,
              eof := false, err := false, version := 5 } < 8 →
        (FlirtModule.referencedFunctions
          { patternPath := [], crcLength := 4, crc16 := 4660, length := 5,
            publicFunctions := [⟨8, [102, 111, 111], false, false⟩],
            tailBytes := [⟨3, 7⟩],
            referencedFunctions := [⟨2, [65], false⟩] }).length = 1)) ∧
    (FlirtModule.tailBytes
        { patternPath := [], crcLength := 0, crc16 := 0, length := 0,
          publicFunctions := [], tailBytes := [⟨3, 7⟩],
          referencedFunctions := [] }).length =
      (FlirtModule.tailBytes
        { patternPath := [], crcLength := 0, crc16 := 0, length := 0,
          publicFunctions := [], tailBytes := [], referencedFunctions := [] }).length +
        (if 8 ≤ ParseState.version
            { body := [3, 7], pos := 0, eof := false, err := false, version := 5 } then
          (readByte { body := [3, 7], pos := 0, eof := false, err := false, version := 5 }).1
        else 1) ∧
    (FlirtModule.referencedFunctions
        { patternPath := [], crcLength := 0, crc16 := 0, length := 0,
          publicFunctions := [], tailBytes := [],
          referencedFunctions := [⟨2, [65], false⟩] }).length =
      (FlirtModule.referencedFunctions
        { patternPath := [], crcLength := 0, crc16 := 0, length := 0,
          publicFunctions := [], tailBytes := [], referencedFunctions := [] }).length +
        (if 8 ≤ ParseState.version
            { body := [2, 1, 65], pos := 0, eof := false, err := false, version := 5 } then
          (readByte { body := [2, 1, 65], pos := 0, eof := false, err := false, version := 5 }).1
        else 1) :=
  ⟨flag_fidelity_c3.1 20
      { body := [5, 8, 102, 111, 111, 6, 3, 7, 2, 1, 65], pos := 0,
        eof := false, err := false, version := 5 }
      4 4660 []
      { patternPath := [], crcLength := 4, crc16 := 4660, length := 5,
        publicFunctions := [⟨8, [102, 111, 111], false, false⟩],
        tailBytes := [⟨3, 7⟩], referencedFunctions := [⟨2, [65], false⟩] }
      6
      { body := [5, 8, 102, 111, 111, 6, 3, 7, 2, 1, 65], pos := 11,
        eof := false, err := false, version := 5 }
      (by decide),
    flag_fidelity_c3.2.1
      { body := [3, 7], pos := 0, eof := false, err := false, version := 5 }
      { patternPath := [], crcLength := 0, crc16 := 0, length := 0,
        publicFunctions := [], tailBytes := [], referencedFunctions := [] }
      { patternPath := [], crcLength := 0, crc16 := 0, length := 0,
        publicFunctions := [], tailBytes := [⟨3, 7⟩], referencedFunctions := [] }
      { body := [3, 7], pos := 2, eof := false, err := false, version := 5 }
      (by decide),
    flag_fidelity_c3.2.2
      { body := [2, 1, 65], pos := 0, eof := false, err := false, version := 5 }
      { patternPath := [], crcLength := 0, crc16 := 0, length := 0,
        publicFunctions := [], tailBytes := [], referencedFunctions := [] }
      { patternPath := [], crcLength := 0, crc16 := 0, length := 0,
        publicFunctions := [], tailBytes := [],
        referencedFunctions := [⟨2, [65], false⟩] }
      { body := [2, 1, 65], pos := 3, eof := false, err := false, version := 5 }
      (by decide)⟩

/-! ## C5: cumulative function offsets -/

/-- The sequence of delta values decoded by the function loop from a given
state: it replays exactly the reads of `readFnLoop` and collects the
per-function delta returned by `multi`/`max2`. -/
def fnDeltas : Nat → ParseState → List Nat
  | 0, _ => []
  | fuel + 1, st =>
    let (d, st1) := if 9 ≤ st.version then readMultipleBytes st else readMax2Bytes st
    if st1.eof || st1.err then []
    else
      let (b0, st2) := readByte st1
      if st2.eof || st2.err then []
      else
        if b0 < 0x20 then
          let (b1, st3) := readByte st2
          if st3.eof || st3.err then []
          else
            match readNameLoop (fuel + 1) st3 b1 [] with
            | none => []
            | some (_, flags, st4) =>
              if flags &&& IDASIG_PARSE_MORE_PUBLIC_NAMES ≠ 0 then
                d :: fnDeltas fuel st4
              else [d]
        else
          match readNameLoop (fuel + 1) st2 b0 [] with
          | none => []
          | some (_, flags, st4) =>
            if flags &&& IDASIG_PARSE_MORE_PUBLIC_NAMES ≠ 0 then
              d :: fnDeltas fuel st4
            else [d]

/-- Running 32-bit sums of a delta sequence from a start offset. -/
def offsetsFrom (offset : Nat) : List Nat → List Nat
  | [] => []
  | d :: ds =>
    ((offset + d) % 4294967296) :: offsetsFrom ((offset + d) % 4294967296) ds

/-- The offsets of the functions produced by `readFnLoop` are exactly the
running 32-bit sums of the decoded deltas (no reset between functions). -/
theorem readFnLoop_offsets :
    ∀ (fuel : Nat) (st : ParseState) (offset : Nat)
      (acc fns : List FlirtFunction) (flags : Nat) (st' : ParseState),
    readFnLoop fuel st offset acc = some (fns, flags, st') →
    fns.map (fun f => f.offset) =
      acc.map (fun f => f.offset) ++ offsetsFrom offset (fnDeltas fuel st) := by
  intro fuel
  induction fuel with
  | zero =>
    intro st offset acc fns flags st' h
    exact absurd h (by simp [readFnLoop])
  | succ fuel ih =>
    intro st offset acc fns flags st' h
    unfold readFnLoop at h
    unfold fnDeltas
    dsimp only at h ⊢
    generalize hg : (if 9 ≤ st.version then readMultipleBytes st else readMax2Bytes st) = dr at h ⊢
    split at h
    · exact absurd h (by simp)
    · rename_i hc1
      rw [if_neg hc1]
      split at h
      · exact absurd h (by simp)
      · rename_i hc2
        rw [if_neg hc2]
        split at h
        · rename_i hb0
          rw [if_pos hb0]
          split at h
          · exact absurd h (by simp)
          · rename_i hc3
            rw [if_neg hc3]
            rcases hnl : readNameLoop (fuel + 1) (readByte (readByte dr.2).2).2
                (readByte (readByte dr.2).2).1 [] with _ | ⟨nm, fl0, st4⟩
            · rw [hnl] at h
              exact absurd h (by simp)
            · try rw [hnl] at h
              try rw [hnl]
              dsimp only at h ⊢
              split at h
              · rename_i hfl
                rw [if_pos hfl]
                rw [ih _ _ _ _ _ _ h]
                rw [List.map_append, List.append_assoc]
                rfl
              · rename_i hfl
                rw [if_neg hfl]
                simp only [Option.some.injEq, Prod.mk.injEq] at h
                rw [← h.1, List.map_append]
                rfl
        · rename_i hb0
          rw [if_neg hb0]
          rcases hnl : readNameLoop (fuel + 1) (readByte dr.2).2
              (readByte dr.2).1 [] with _ | ⟨nm, fl0, st4⟩
          · rw [hnl] at h
            exact absurd h (by simp)
          · try rw [hnl] at h
            try rw [hnl]
            dsimp only at h ⊢
            split at h
            · rename_i hfl
              rw [if_pos hfl]
              rw [ih _ _ _ _ _ _ h]
              rw [List.map_append, List.append_assoc]
              rfl
            · rename_i hfl
              rw [if_neg hfl]
              simp only [Option.some.injEq, Prod.mk.injEq] at h
              rw [← h.1, List.map_append]
              rfl

/-- Without 32-bit wrap-around the running sums are non-decreasing. -/
theorem offsetsFrom_chain :
    ∀ (ds : List Nat) (offset : Nat), offset + ds.sum < 4294967296 →
    List.Chain' (· ≤ ·) (offset :: offsetsFrom offset ds) := by
  intro ds
  induction ds with
  | nil => intro offset _; simp [offsetsFrom]
  | cons d ds ih =>
    intro offset hsum
    rw [List.sum_cons] at hsum
    have hmod : (offset + d) % 4294967296 = offset + d :=
      Nat.mod_eq_of_lt (by omega)
    unfold offsetsFrom
    rw [hmod]
    rw [List.chain'_cons]
    exact ⟨by omega, ih (offset + d) (by omega)⟩

/-! ## The per-module invariant carried by the tree walk -/

/-- A decoded node is well-formed: mask and byte lists have equal length. -/
def NodeWF (node : FlirtPatternNode) : Prop :=
  node.variantMask.length = node.patternBytes.length

/-- What every emitted module satisfies: its path nodes are well-formed and
its function list is the output of the function-loop decoder run from some
state with running offset 0 and an empty accumulator. -/
def ModInv (m : FlirtModule) : Prop :=
  (∀ node ∈ m.patternPath, NodeWF node) ∧
  (∃ fuel st flags st',
    readFnLoop fuel st 0 [] = some (m.publicFunctions, flags, st'))

theorem readNodeLoop_lengths :
    ∀ (mask n : Nat) (st : ParseState) (pb vm : List Nat) (st' : ParseState),
    readNodeLoop mask n st = some (pb, vm, st') →
    pb.length = n ∧ vm.length = n := by
  intro mask n
  induction n with
  | zero =>
    intro st pb vm st' h
    unfold readNodeLoop at h
    simp only [Option.some.injEq, Prod.mk.injEq] at h
    rw [← h.1, ← h.2.1]
    exact ⟨rfl, rfl⟩
  | succ n ih =>
    intro st pb vm st' h
    unfold readNodeLoop at h
    dsimp only at h
    split at h
    · split at h
      · rename_i pb0 vm0 st0 heq
        simp only [Option.some.injEq, Prod.mk.injEq] at h
        obtain ⟨h1, h2, _⟩ := h
        obtain ⟨l1, l2⟩ := ih _ _ _ _ heq
        rw [← h1, ← h2]
        simp [l1, l2]
      · exact absurd h (by simp)
    · split at h
      · exact absurd h (by simp)
      · split at h
        · rename_i pb0 vm0 st0 heq
          simp only [Option.some.injEq, Prod.mk.injEq] at h
          obtain ⟨h1, h2, _⟩ := h
          obtain ⟨l1, l2⟩ := ih _ _ _ _ heq
          rw [← h1, ← h2]
          simp [l1, l2]
        · exact absurd h (by simp)

theorem readNodeBytes_wf (st : ParseState) (nodeLen mask : Nat)
    (node : FlirtPatternNode) (st' : ParseState)
    (h : readNodeBytes st nodeLen mask = some (node, st')) : NodeWF node := by
  unfold readNodeBytes at h
  split at h
  · exact absurd h (by simp)
  · split at h
    · rename_i pb vm st0 heq
      simp only [Option.some.injEq, Prod.mk.injEq] at h
      obtain ⟨l1, l2⟩ := readNodeLoop_lengths _ _ _ _ _ _ heq
      rw [← h.1]
      unfold NodeWF
      dsimp only
      rw [l1, l2]
    · exact absurd h (by simp)

theorem parseLeafInner_inv :
    ∀ (fuel : Nat) (st : ParseState) (cl c16 : Nat)
      (path : List FlirtPatternNode) (mods : List FlirtModule)
      (ok : Bool) (mods' : List FlirtModule) (flags : Nat) (st' : ParseState),
    parseLeafInner fuel st cl c16 path mods = (ok, mods', flags, st') →
    (∀ node ∈ path, NodeWF node) → (∀ m ∈ mods, ModInv m) →
    ∀ m ∈ mods', ModInv m := by
  intro fuel
  induction fuel with
  | zero =>
    intro st cl c16 path mods ok mods' flags st' h _ hmods
    unfold parseLeafInner at h
    simp only [Prod.mk.injEq] at h
    rw [← h.2.1]
    exact hmods
  | succ fuel ih =>
    intro st cl c16 path mods ok mods' flags st' h hpath hmods
    unfold parseLeafInner at h
    split at h
    · simp only [Prod.mk.injEq] at h
      rw [← h.2.1]
      exact hmods
    · rename_i mod fl st2 heq
      have hmod : ModInv mod := by
        obtain ⟨f1, _, _, _, _, f6⟩ := parseLeafModule_flags _ _ _ _ _ _ _ _ heq
        exact ⟨by rw [f1]; exact hpath, f6⟩
      have hmods1 : ∀ m ∈ mods ++ [mod], ModInv m := by
        intro m hm
        rcases List.mem_append.mp hm with hm | hm
        · exact hmods m hm
        · rw [List.mem_singleton.mp hm]
          exact hmod
      split at h
      · exact ih _ _ _ _ _ _ _ _ _ h hpath hmods1
      · simp only [Prod.mk.injEq] at h
        rw [← h.2.1]
        exact hmods1

theorem parseLeaf_inv :
    ∀ (fuel : Nat) (st : ParseState) (path : List FlirtPatternNode)
      (mods : List FlirtModule) (ok : Bool) (mods' : List FlirtModule)
      (st' : ParseState),
    parseLeaf fuel st path mods = (ok, mods', st') →
    (∀ node ∈ path, NodeWF node) → (∀ m ∈ mods, ModInv m) →
    ∀ m ∈ mods', ModInv m := by
  intro fuel
  induction fuel with
  | zero =>
    intro st path mods ok mods' st' h _ hmods
    unfold parseLeaf at h
    simp only [Prod.mk.injEq] at h
    rw [← h.2.1]
    exact hmods
  | succ fuel ih =>
    intro st path mods ok mods' st' h hpath hmods
    unfold parseLeaf at h
    dsimp only at h
    split at h
    · simp only [Prod.mk.injEq] at h
      rw [← h.2.1]
      exact hmods
    · split at h
      · simp only [Prod.mk.injEq] at h
        rw [← h.2.1]
        exact hmods
      · split at h
        · rename_i mods1 fl st2 heq
          simp only [Prod.mk.injEq] at h
          rw [← h.2.1]
          exact parseLeafInner_inv _ _ _ _ _ _ _ _ _ _ heq hpath hmods
        · rename_i mods1 fl st2 heq
          have hmods1 := parseLeafInner_inv _ _ _ _ _ _ _ _ _ _ heq hpath hmods
          split at h
          · exact ih _ _ _ _ _ _ h hpath hmods1
          · simp only [Prod.mk.injEq] at h
            rw [← h.2.1]
            exact hmods1

theorem parseTreeChildren_inv :
    ∀ fuel : Nat,
    (∀ (st : ParseState) (r : FlirtResult) (path : List FlirtPatternNode)
       (mods : List FlirtModule) (ok : Bool) (st' : ParseState)
       (r' : FlirtResult) (mods' : List FlirtModule),
      parseTree fuel st r path mods = (ok, st', r', mods') →
      (∀ node ∈ path, NodeWF node) → (∀ m ∈ mods, ModInv m) →
      ∀ m ∈ mods', ModInv m) ∧
    (∀ (n : Nat) (st : ParseState) (r : FlirtResult)
       (path : List FlirtPatternNode) (mods : List FlirtModule) (ok : Bool)
       (st' : ParseState) (r' : FlirtResult) (mods' : List FlirtModule),
      parseChildren fuel n st r path mods = (ok, st', r', mods') →
      (∀ node ∈ path, NodeWF node) → (∀ m ∈ mods, ModInv m) →
      ∀ m ∈ mods', ModInv m) := by
  intro fuel
  induction fuel with
  | zero =>
    constructor
    · intro st r path mods ok st' r' mods' h _ hmods
      unfold parseTree at h
      simp only [Prod.mk.injEq] at h
      rw [← h.2.2.2]
      exact hmods
    · intro n st r path mods ok st' r' mods' h _ hmods
      unfold parseChildren at h
      simp only [Prod.mk.injEq] at h
      rw [← h.2.2.2]
      exact hmods
  | succ fuel ih =>
    constructor
    · intro st r path mods ok st' r' mods' h hpath hmods
      unfold parseTree at h
      dsimp only at h
      split at h
      · simp only [Prod.mk.injEq] at h
        rw [← h.2.2.2]
        exact hmods
      · split at h
        · simp only [Prod.mk.injEq] at h
          rw [← h.2.2.2]
          exact parseLeaf_inv _ _ _ _ _ _ _ rfl hpath hmods
        · exact ih.2 _ _ _ _ _ _ _ _ _ h hpath hmods
    · intro n st r path mods ok st' r' mods' h hpath hmods
      unfold parseChildren at h
      split at h
      · simp only [Prod.mk.injEq] at h
        rw [← h.2.2.2]
        exact hmods
      · split at h
        · simp only [Prod.mk.injEq] at h
          rw [← h.2.2.2]
          exact hmods
        · split at h
          · simp only [Prod.mk.injEq] at h
            rw [← h.2.2.2]
            exact hmods
          · split at h
            · simp only [Prod.mk.injEq] at h
              rw [← h.2.2.2]
              exact hmods
            · rename_i nodeLen st1 mask st2 node st3 heqN
              have hnode := readNodeBytes_wf _ _ _ _ _ heqN
              have hpath1 : ∀ nd ∈ path ++ [node], NodeWF nd := by
                intro nd hnd
                rcases List.mem_append.mp hnd with hnd | hnd
                · exact hpath nd hnd
                · rw [List.mem_singleton.mp hnd]
                  exact hnode
              split at h
              · rename_i st4 r4 m4 heqT
                have hm4 := ih.1 _ _ _ _ _ _ _ _ heqT hpath1 hmods
                exact ih.2 _ _ _ _ _ _ _ _ _ h hpath hm4
              · rename_i st4 r4 m4 heqT
                simp only [Prod.mk.injEq] at h
                rw [← h.2.2.2]
                exact ih.1 _ _ _ _ _ _ _ _ heqT hpath1 hmods

theorem parseHeader_success (st : ParseState) (r : FlirtResult) :
    (parseHeader st r).2.2.success = r.success := by
  unfold parseHeader
  dsimp only
  repeat' split
  all_goals rfl

theorem parseTreeChildren_success :
    ∀ fuel : Nat,
    (∀ (st : ParseState) (r : FlirtResult) (path : List FlirtPatternNode)
       (mods : List FlirtModule),
      (parseTree fuel st r path mods).2.2.1.success = r.success) ∧
    (∀ (n : Nat) (st : ParseState) (r : FlirtResult)
       (path : List FlirtPatternNode) (mods : List FlirtModule),
      (parseChildren fuel n st r path mods).2.2.1.success = r.success) := by
  intro fuel
  induction fuel with
  | zero =>
    exact ⟨fun st r path mods => rfl, fun n st r path mods => rfl⟩
  | succ fuel ih =>
    constructor
    · intro st r path mods
      unfold parseTree
      dsimp only
      split
      · rfl
      · split
        · rfl
        · exact ih.2 _ _ _ _ _
    · intro n st r path mods
      unfold parseChildren
      split
      · rfl
      · split
        · rfl
        · split
          · rfl
          · split
            · rfl
            · split
              · rename_i st4 r4 m4 heqT
                rw [ih.2]
                have h2 := congrArg (fun t => t.2.2.1.success) heqT
                dsimp only at h2
                rw [ih.1] at h2
                exact h2.symm
              · rename_i st4 r4 m4 heqT
                dsimp only
                have h2 := congrArg (fun t => t.2.2.1.success) heqT
                dsimp only at h2
                rw [ih.1] at h2
                exact h2.symm

/-- Every module of a successful `parse` satisfies the invariant: its path
nodes are well-formed and its functions come from the function-loop decoder
started at offset 0. -/
theorem parse_modules_inv (data : List Nat)
    (hs : (parse data).success = true) :
    ∀ m ∈ (parse data).modules, ModInv m := by
  revert hs
  unfold parse
  dsimp only
  split
  · intro hs
    exact absurd hs (by decide)
  · split
    · rename_i st' r heq
      intro hs
      have := parseHeader_success
        { body := data, pos := 0, eof := false, err := false
          version := data.getD 6 0 % 256 } {}
      rw [heq] at this
      dsimp only at this
      rw [hs] at this
      exact absurd this.symm (by decide)
    · rename_i st1 r1 heq
      have hr1 : r1.success = false := by
        have := parseHeader_success
          { body := data, pos := 0, eof := false, err := false
            version := data.getD 6 0 % 256 } {}
        rw [heq] at this
        exact this
      split
      · intro hs
        simp only at hs
        rw [hr1] at hs
        exact absurd hs (by decide)
      · split
        · rename_i st2 r2 mods heq2
          split
          · intro hs
            have := (parseTreeChildren_success (2 * data.length + 4)).1 st1 r1 [] []
            rw [heq2] at this
            dsimp only at this
            simp only at hs
            rw [this, hr1] at hs
            exact absurd hs (by decide)
          · intro hs
            have := (parseTreeChildren_success (2 * data.length + 4)).1 st1 r1 [] []
            rw [heq2] at this
            dsimp only at this
            simp only at hs
            rw [this, hr1] at hs
            exact absurd hs (by decide)
        · rename_i st2 r2 mods heq2
          intro _
          dsimp only
          exact (parseTreeChildren_inv (2 * data.length + 4)).1 _ _ _ _ _ _ _ _
            heq2 (by intro node hn; exact absurd hn (List.not_mem_nil node))
            (by intro m hm; exact absurd hm (List.not_mem_nil m))

/-- C5 as amended: within every module of a successful parse, the i-th
function's offset equals the running sum *modulo 2^32* of the first i+1
deltas decoded from the input (`multi` for version ≥ 9, `max2` otherwise,
with no reset between functions); the offsets are non-strictly increasing
provided that running sum stays below 2^32 — on a 32-bit wrap they can
decrease. -/
theorem cumulative_offsets_c5 (data : List Nat)
    (hs : (parse data).success = true)
    (m : FlirtModule) (hm : m ∈ (parse data).modules) :
    ∃ fuel st flags st',
      readFnLoop fuel st 0 [] = some (m.publicFunctions, flags, st') ∧
      m.publicFunctions.map (fun f => f.offset) = offsetsFrom 0 (fnDeltas fuel st) ∧
      ((fnDeltas fuel st).sum < 4294967296 →
        List.Chain' (· ≤ ·) (m.publicFunctions.map (fun f => f.offset))) := by
  obtain ⟨_, fuel, st, flags, st', heq⟩ := parse_modules_inv data hs m hm
  have hmap := readFnLoop_offsets _ _ _ _ _ _ _ heq
  simp only [List.map_nil, List.nil_append] at hmap
  refine ⟨fuel, st, flags, st', heq, hmap, ?_⟩
  intro hsum
  rw [hmap]
  exact (offsetsFrom_chain _ 0 (by omega)).tail

/-- A version-9 file whose module has two functions with deltas of
0xffffffff each, so the second 32-bit offset wraps below the first. -/
def cex5Input : List Nat :=
  v9Header ++ [0, 4, 18, 52, 5, 224, 255, 255, 255, 255, 97, 1,
    224, 255, 255, 255, 255, 98, 0]

/-- The module decoded from `cex5Input`. -/
def exModC5 : FlirtModule :=
  { patternPath := [], crcLength := 4, crc16 := 4660, length := 5,
    publicFunctions :=
      [⟨4294967295, [97], false, false⟩, ⟨4294967294, [98], false, false⟩],
    tailBytes := [], referencedFunctions := [] }

theorem parse_eval_cex5Input :
    parse cex5Input = { exResult 9 with modules := [exModC5], success := true } := by
  apply parse_unfold_success cex5Input
      { body := cex5Input, pos := 43, eof := false, err := false, version := 9 }
      (exResult 9)
      { body := cex5Input, pos := 62, eof := false, err := false, version := 9 }
      (exResult 9) [exModC5]
  · decide
  · decide
  · decide
  · decide

/-- C5 counterexample: `cex5Input` parses successfully, yet its module's
offsets are 0xffffffff followed by 0xfffffffe — strictly decreasing, because
the running 32-bit offset wraps. -/
theorem cumulative_offsets_c5_cex :
    (parse cex5Input).success = true ∧
    (parse cex5Input).modules.map
      (fun m => m.publicFunctions.map (fun f => f.offset)) =
      [[4294967295, 4294967294]] ∧
    ¬ List.Chain' (· ≤ ·) [4294967295, 4294967294] := by
  refine ⟨by rw [parse_eval_cex5Input], ?_, ?_⟩
  · rw [parse_eval_cex5Input]
    decide
  · rw [List.chain'_cons]
    simp only [List.chain'_singleton, and_true]
    omega

/-- Witness for C5 (amended) at the scenario-A input and its module. -/
theorem cumulative_offsets_c5_witness :
    ∃ fuel st flags st',
      readFnLoop fuel st 0 [] = some (exModA.publicFunctions, flags, st') ∧
      exModA.publicFunctions.map (fun f => f.offset) =
        offsetsFrom 0 (fnDeltas fuel st) ∧
      ((fnDeltas fuel st).sum < 4294967296 →
        List.Chain' (· ≤ ·) (exModA.publicFunctions.map (fun f => f.offset))) :=
  cumulative_offsets_c5 exInputA (by rw [parse_eval_exInputA]) exModA
    (by rw [parse_eval_exInputA]; decide)

/-! ## C9: pattern-path hex rendering -/

theorem getD_range_map' {α : Type} (f : Nat → α) (d : α) (L i : Nat)
    (h : i < L) : ((List.range L).map f).getD i d = f i := by
  rw [List.getD_eq_getElem?_getD, List.getElem?_map, List.getElem?_range h]
  rfl

theorem hexDigitUpper_ne_dot (n : Nat) : hexDigitUpper n ≠ '.' := by
  unfold hexDigitUpper
  by_cases h : n < 16
  · interval_cases n <;> decide
  · rw [List.getD_eq_getElem?_getD,
      List.getElem?_eq_none (by simp only [List.length_cons, List.length_nil]; omega)]
    decide

theorem byteToHexUpper_length (b : Nat) : (byteToHexUpper b).length = 2 := rfl

theorem byteToHexUpper_ne_dots (b : Nat) : byteToHexUpper b ≠ ".." := by
  intro hEq
  have h1 := congrArg (fun s => s.data.getD 0 'x') hEq
  simp only [byteToHexUpper, String.data] at h1
  exact hexDigitUpper_ne_dot (b % 256 / 16) h1

theorem string_join_length (l : List String) :
    (String.join l).length = (l.map String.length).sum := by
  unfold String.join
  suffices h : ∀ (l : List String) (s : String),
      (l.foldl (· ++ ·) s).length = s.length + (l.map String.length).sum by
    simpa using h l ""
  intro l
  induction l with
  | nil => intro s; simp
  | cons a l ih =>
    intro s
    rw [List.foldl_cons, ih, String.length_append, List.map_cons, List.sum_cons]
    omega

theorem toHexString_length (node : FlirtPatternNode) :
    node.toHexString.length = 2 * node.patternBytes.length := by
  unfold FlirtPatternNode.toHexString
  rw [string_join_length]
  unfold FlirtPatternNode.hexChunks
  rw [List.map_map]
  rw [show (String.length ∘ fun i =>
      if i < node.variantMask.length ∧ node.variantMask.getD i 0 ≠ 0 then ".."
      else byteToHexUpper (node.patternBytes.getD i 0)) = (fun _ => 2) from
    funext fun i => by
      simp only [Function.comp]
      split
      · rfl
      · rfl]
  simp [List.map_const']
  ring

/-- C9: for every module of a successful parse, the concatenation of its
pattern-path hex renderings has length `2 × Σ nodeLen`, with `..` at exactly
the variant byte positions and two non-dot uppercase hex digits at every
concrete position. -/
theorem pattern_path_hex_c9 (data : List Nat)
    (hs : (parse data).success = true)
    (m : FlirtModule) (hm : m ∈ (parse data).modules) :
    (String.join (m.patternPath.map FlirtPatternNode.toHexString)).length =
      2 * (m.patternPath.map (fun n => n.patternBytes.length)).sum ∧
    ∀ node ∈ m.patternPath, ∀ i < node.patternBytes.length,
      (node.variantMask.getD i 0 ≠ 0 → node.hexChunks.getD i "" = "..") ∧
      (node.variantMask.getD i 0 = 0 →
        node.hexChunks.getD i "" = byteToHexUpper (node.patternBytes.getD i 0) ∧
        node.hexChunks.getD i "" ≠ ".." ∧
        (node.hexChunks.getD i "").length = 2) := by
  constructor
  · rw [string_join_length, List.map_map]
    rw [List.map_congr_left (fun node _ => by
      simp only [Function.comp]
      exact toHexString_length node)]
    rw [List.sum_map_mul_left]
  · intro node hn i hi
    have wf : NodeWF node := (parse_modules_inv data hs m hm).1 node hn
    unfold NodeWF at wf
    constructor
    · intro hvar
      unfold FlirtPatternNode.hexChunks
      rw [getD_range_map' _ _ _ _ hi]
      rw [if_pos ⟨by omega, hvar⟩]
    · intro hconc
      unfold FlirtPatternNode.hexChunks
      rw [getD_range_map' _ _ _ _ hi]
      rw [if_neg (fun hc => hc.2 hconc)]
      exact ⟨rfl, byteToHexUpper_ne_dots _, byteToHexUpper_length _⟩

/-- Scenario E: a one-branch tree whose node has length 3 and variant mask
bit 1 (byte index 1 variant), followed by the scenario-A leaf. -/
def exInputE : List Nat :=
  v5Header ++ [1, 3, 2, 170, 187, 0, 4, 18, 52, 5, 8, 102, 111, 111, 0]

/-- The module decoded from `exInputE`. -/
def exModE : FlirtModule :=
  { exModA with patternPath := [⟨[170, 0, 187], [0, 1, 0]⟩] }

theorem parse_eval_exInputE :
    parse exInputE = { exResult 5 with modules := [exModE], success := true } := by
  apply parse_unfold_success exInputE
      { body := exInputE, pos := 37, eof := false, err := false, version := 5 }
      (exResult 5)
      { body := exInputE, pos := 52, eof := false, err := false, version := 5 }
      (exResult 5) [exModE]
  · decide
  · decide
  · decide
  · decide

/-- Witness for C9 at `exInputE` and its single module. -/
theorem pattern_path_hex_c9_witness :
    (String.join (exModE.patternPath.map FlirtPatternNode.toHexString)).length =
      2 * (exModE.patternPath.map (fun n => n.patternBytes.length)).sum ∧
    ∀ node ∈ exModE.patternPath, ∀ i < node.patternBytes.length,
      (node.variantMask.getD i 0 ≠ 0 → node.hexChunks.getD i "" = "..") ∧
      (node.variantMask.getD i 0 = 0 →
        node.hexChunks.getD i "" = byteToHexUpper (node.patternBytes.getD i 0) ∧
        node.hexChunks.getD i "" ≠ ".." ∧
        (node.hexChunks.getD i "").length = 2) :=
  pattern_path_hex_c9 exInputE (by rw [parse_eval_exInputE]) exModE
    (by rw [parse_eval_exInputE]; decide)

end SigParser
